import Mathlib

/-!
Verification of the thinkdrop user-memory service against its specification.

The JavaScript sources are shallowly embedded: JS strings are modelled as
`List Char` (UTF-16 code units; all inputs considered are ASCII, where the
two coincide), JS numbers used as timestamps/counters are modelled as `Nat`
(milliseconds since epoch) or `Int`, floating-point vector components as `ℚ`
(every `ℚ` is finite, so the source's NaN/Infinity checks are vacuous here;
this is noted where relevant), and the DuckDB tables as Lean lists of rows.
Fallible JS functions (`throw`) are modelled with `Except`/`Option`.
Each definition names the source function it embeds.
-/

namespace ThinkdropMemory

/-- Model of a JavaScript string: a list of characters. -/
abbrev Str := List Char

/-- Characters treated as whitespace by `String.prototype.trim`, `\s` and
`split(/\s+/)` for the ASCII inputs considered here. -/
def isWs (c : Char) : Bool :=
  c = ' ' || c = '\t' || c = '\n' || c = '\r' || c = '\x0b' || c = '\x0c'

/-- JS `String.prototype.trim()`: strip whitespace from both ends. -/
def jsTrim (s : Str) : Str :=
  ((s.dropWhile isWs).reverse.dropWhile isWs).reverse

/-- JS `String.prototype.toLowerCase()` (ASCII case mapping). -/
def jsToLower (s : Str) : Str :=
  s.map Char.toLower

/-- JS truthiness of a string: every string except `""` is truthy. -/
def strTruthy (s : Str) : Bool :=
  s ≠ []

/-- JS truthiness of an optional string-valued field: `undefined`/`null`
and `""` are falsy. -/
def optStrTruthy : Option Str → Bool
  | none => false
  | some s => strTruthy s

/-- Boolean substring test (`String.prototype.includes` / SQL
`LIKE '%pat%'` with no further wildcards in `pat`). -/
def containsSub (pat s : Str) : Bool :=
  (List.range (s.length + 1)).any fun i => (s.drop i).take pat.length = pat

/-- Does `pre` occur at the start of `s` (JS `startsWith`)? -/
def strStarts (pre s : Str) : Bool :=
  s.take pre.length = pre

/- ------------------------------------------------------------------
src/utils/helpers.js (src/unnamed/part_006)
------------------------------------------------------------------ -/

/-- `helpers.validateMemoryText(text)`: throws when the string is empty
(JS falsy) or when its raw length exceeds 10 000 characters; otherwise
returns the trimmed text.  Note the length check runs on the string
*before* trimming. -/
def validateMemoryText (text : Str) : Except String Str :=
  if text = [] then
    .error "Memory text must be a non-empty string"
  else if text.length > 10000 then
    .error "Memory text exceeds maximum length of 10,000 characters"
  else
    .ok (jsTrim text)

/-- Caller context (`context` argument of the service methods). -/
structure Ctx where
  userId : Option Str := none
  sessionId : Option Str := none
  messageCount : Option Int := none
  hasHistory : Bool := false
deriving DecidableEq, Repr

/-- `helpers.extractUserId(context)`: `context?.userId || 'default_user'`. -/
def extractUserId (context : Ctx) : Str :=
  match context.userId with
  | some u => if u = [] then "default_user".data else u
  | none => "default_user".data

/-- A caller-supplied entity in a store/update payload. -/
structure PayloadEntity where
  type : Str
  value : Str
  entity_type : Option Str := none
  normalized : Option Str := none
deriving DecidableEq, Repr

/-- `helpers.validateEntity(entity)`: both `type` and `value` truthy. -/
def validateEntity (e : PayloadEntity) : Bool :=
  strTruthy e.type && strTruthy e.value

/-- `helpers.normalizeEntities(entities)`: keep valid entities, cap at 100. -/
def normalizeEntities (entities : List PayloadEntity) : List PayloadEntity :=
  (entities.filter validateEntity).take 100

/- ------------------------------------------------------------------
src/services/embeddings.js, LRU+TTL version (src/unnamed/part_005)
------------------------------------------------------------------ -/

/-- One entry of the `lru-cache` instance: key, cached vector and the
time the entry was (re)inserted or last refreshed (`updateAgeOnGet`). -/
structure CacheEntry where
  key : Str
  vec : List ℚ
  insertedAt : Nat
deriving DecidableEq, Repr

/-- State of `EmbeddingService`: the LRU cache (most recently used first),
its capacity and TTL, and the hit/miss counters. -/
structure EmbedderState where
  cache : List CacheEntry := []
  cacheSize : Nat
  cacheTTL : Nat
  hits : Nat := 0
  misses : Nat := 0
  totalRequests : Nat := 0

/-- Constructor defaults: `parseInt(process.env.EMBEDDING_CACHE_SIZE) || 1000`
and `parseInt(process.env.EMBEDDING_CACHE_TTL) || 86400000` (24 h in ms);
an unset variable gives `NaN`, which is falsy.  `envSize`/`envTTL` model the
environment (none = unset or non-numeric). -/
def initialEmbedderState (envSize envTTL : Option Nat) : EmbedderState :=
  { cacheSize := match envSize with
      | some n => if n = 0 then 1000 else n
      | none => 1000
    cacheTTL := match envTTL with
      | some n => if n = 0 then 86400000 else n
      | none => 86400000 }

/-- `EmbeddingService.getCacheKey(text)`:
`text.toLowerCase().trim().slice(0, 200)`. -/
def getCacheKey (text : Str) : Str :=
  (jsTrim (jsToLower text)).take 200

/-- `lru-cache` `get` with `allowStale:false, updateAgeOnGet:true`:
return the entry's value when it exists and has not outlived the TTL,
refreshing its age and recency; a stale entry is treated as absent. -/
def cacheGet (st : EmbedderState) (now : Nat) (key : Str) :
    EmbedderState × Option (List ℚ) :=
  match st.cache.find? (fun e => e.key = key) with
  | none => (st, none)
  | some e =>
    if now < e.insertedAt + st.cacheTTL then
      ({ st with cache :=
          { e with insertedAt := now } :: st.cache.filter (fun x => x.key ≠ key) },
        some e.vec)
    else
      ({ st with cache := st.cache.filter (fun x => x.key ≠ key) }, none)

/-- `lru-cache` `set`: insert at the most-recently-used end, evicting past
the capacity. -/
def cacheSet (st : EmbedderState) (now : Nat) (key : Str) (vec : List ℚ) :
    EmbedderState :=
  { st with cache :=
      ({ key := key, vec := vec, insertedAt := now } ::
        st.cache.filter (fun x => x.key ≠ key)).take st.cacheSize }

/-- `EmbeddingService.generateEmbedding(text)` (part_005), with the
underlying transformer call abstracted as a pure oracle
`model : Str → List ℚ` (the fallback path also reduces to a pure function
of the text).  Mirrors: the empty/whitespace-only input check, the cache
lookup keyed by `getCacheKey`, the 384-dimension validation (the NaN/∞
check is vacuous over `ℚ`), and caching of the produced vector.  The
service is assumed initialised (`isLoaded`); `now` is the call time. -/
def generateEmbedding (model : Str → List ℚ) (now : Nat)
    (st : EmbedderState) (text : Str) :
    EmbedderState × Except String (List ℚ) :=
  if text = [] || jsTrim text = [] then
    (st, .error "Text must be a non-empty string")
  else
    match cacheGet { st with totalRequests := st.totalRequests + 1 } now
        (getCacheKey text) with
    | (st2, some v) => ({ st2 with hits := st2.hits + 1 }, .ok v)
    | (st2, none) =>
      if (model text).length ≠ 384 then
        ({ st2 with misses := st2.misses + 1 }, .error "Expected 384 dimensions")
      else
        (cacheSet { st2 with misses := st2.misses + 1 } now (getCacheKey text)
          (model text), .ok (model text))

/- ------------------------------------------------------------------
src/services/memory.js (src/unnamed/part_004): data model
------------------------------------------------------------------ -/

/-- A row of the `memory` table.  Timestamps are in milliseconds. -/
structure MemoryRow where
  id : Str
  userId : Str
  type : Str := "user_memory".data
  sourceText : Str
  metadata : Str := "{}".data
  screenshot : Option Str := none
  extractedText : Option Str := none
  embedding : Option (List ℚ) := none
  createdAt : Nat
  updatedAt : Nat
deriving DecidableEq, Repr

/-- A row of the `memory_entities` table. -/
structure EntityRow where
  id : Str
  memoryId : Str
  entity : Str
  type : Str
  entityType : Str
  normalizedValue : Str
deriving DecidableEq, Repr

/-- The database: the two tables used by the memory service. -/
structure Db where
  memory : List MemoryRow := []
  entities : List EntityRow := []
deriving DecidableEq, Repr

/-- JS `a || b` for an optional number whose falsy values are
`undefined`/`NaN`/`0` (model: `none` or `some 0`). -/
def jsOrNat (v : Option Nat) (d : Nat) : Nat :=
  match v with
  | some n => if n = 0 then d else n
  | none => d

/-- JS `a || b` on an optional integer (`0` falsy). -/
def jsOrInt (v : Option Int) (d : Int) : Int :=
  match v with
  | some n => if n = 0 then d else n
  | none => d

/-- JS `a || b` on an optional rational (`0` falsy). -/
def jsOrQ (v : Option ℚ) (d : ℚ) : ℚ :=
  match v with
  | some q => if q = 0 then d else q
  | none => d

/-- `options.filters` of `searchMemories`. -/
structure SearchFilters where
  type : Option Str := none
  sessionId : Option Str := none

/-- `options` of `searchMemories`. -/
structure SearchOptions where
  userId : Option Str := none
  limit : Option Nat := none
  offset : Option Nat := none
  minSimilarity : Option ℚ := none
  maxAgeDays : Option Int := none
  filters : Option SearchFilters := none
  sessionId : Option Str := none

/-- `searchMemories` line 155:
`options.maxAgeDays || parseInt(process.env.MAX_AGE_DAYS) || 30`.
`envMaxAge = none` models an unset/non-numeric variable (`parseInt`
gives falsy `NaN`). -/
def effectiveMaxAgeDays (opt env : Option Int) : Int :=
  jsOrInt opt (jsOrInt env 30)

/-- `searchMemories` line 154:
`options.minSimilarity || parseFloat(process.env.MIN_SIMILARITY_THRESHOLD) || 0.3`. -/
def effectiveMinSimilarity (opt env : Option ℚ) : ℚ :=
  jsOrQ opt (jsOrQ env (3/10))

/-- One condition pushed onto `whereConditions` in `searchMemories`
(lines 179–197); the trailing `embedding IS NOT NULL` conjunct of the
`WHERE` clause is handled separately, as in the source. -/
inductive SearchCond where
  | userEq (u : Str)
  | ageAtMost (days : Int)
  | typeEq (t : Str)
  | sessionLike (sid : Str)

/-- The `LIKE '%"sessionId":"<sid>"%'` pattern body. -/
def sessionPat (sid : Str) : Str :=
  "\"sessionId\":\"".data ++ sid ++ "\"".data

/-- Interpretation of one condition against a row at query time `now`;
`created_at >= CURRENT_TIMESTAMP - INTERVAL '<d>' DAY` becomes
`createdAt ≥ now - d·86400000` (ms). -/
def matchesCond (now : Nat) (r : MemoryRow) : SearchCond → Bool
  | .userEq u => decide (r.userId = u)
  | .ageAtMost d => decide ((r.createdAt : Int) ≥ (now : Int) - d * 86400000)
  | .typeEq t => decide (r.type = t)
  | .sessionLike sid => containsSub (sessionPat sid) r.metadata

/-- `searchMemories` lines 179–197: build the condition list. -/
def buildSearchConds (userId : Str) (maxAgeDays : Int)
    (options : SearchOptions) : List SearchCond :=
  [SearchCond.userEq userId]
  ++ (if maxAgeDays > 0 then [SearchCond.ageAtMost maxAgeDays] else [])
  ++ (match options.filters with
      | some f =>
        (match f.type with
          | some t => if strTruthy t then [SearchCond.typeEq t] else []
          | none => [])
        ++ (match f.sessionId with
          | some s => if strTruthy s then [SearchCond.sessionLike s] else []
          | none => [])
      | none => [])
  ++ (match options.sessionId with
      | some s => if strTruthy s then [SearchCond.sessionLike s] else []
      | none => [])

/-- Insertion into a list kept ascending in `key` (model of the SQL
`ORDER BY`; ties may land in any order, as in SQL). -/
def insertAscBy (key : α → ℚ) (a : α) : List α → List α
  | [] => [a]
  | b :: l => if key a ≤ key b then a :: b :: l else b :: insertAscBy key a l

/-- Sort a list ascending in `key`. -/
def sortAscBy (key : α → ℚ) : List α → List α
  | [] => []
  | a :: l => insertAscBy key a (sortAscBy key l)

/-- One element of the search response's `results` array.  The source
maps entity rows to `{type, value, entity_type}` objects; the rows are
kept whole here. -/
structure SearchResultItem where
  id : Str
  text : Str
  similarity : ℚ
  entities : List EntityRow
  metadata : Str
  screenshot : Option Str
  extractedText : Option Str
  createdAt : Nat
deriving DecidableEq, Repr

/-- `MemoryService.searchMemories(query, options, context)`
(part_004 lines 146–323).  `dist` abstracts DuckDB's
`array_cosine_distance`; the SQL query filters by the built conditions
plus `embedding IS NOT NULL`, orders ascending by distance, applies
`LIMIT`/`OFFSET`, computes `similarity = 1 - distance`; the service then
drops results below the similarity threshold and enriches survivors with
their entity rows, preserving order. -/
def searchMemories (dist : List ℚ → List ℚ → ℚ) (model : Str → List ℚ)
    (now : Nat) (envMinSim : Option ℚ) (envMaxAge : Option Int)
    (db : Db) (embSt : EmbedderState)
    (query : Str) (options : SearchOptions) (context : Ctx) :
    EmbedderState × Except String (List SearchResultItem) :=
  let userId := extractUserId context
  let limit := jsOrNat options.limit 25
  let offset := jsOrNat options.offset 0
  let minSim := effectiveMinSimilarity options.minSimilarity envMinSim
  let maxAge := effectiveMaxAgeDays options.maxAgeDays envMaxAge
  match generateEmbedding model now embSt query with
  | (embSt, .error e) =>
    (embSt, .error ("Cannot search without query embedding: " ++ e))
  | (embSt, .ok qvec) =>
    let conds := buildSearchConds userId maxAge options
    let rows := db.memory.filter fun r =>
      conds.all (matchesCond now r) && r.embedding.isSome
    let sorted := sortAscBy (fun r => dist (r.embedding.getD []) qvec) rows
    let paged := (sorted.drop offset).take limit
    let withSim := paged.map fun r => (r, 1 - dist (r.embedding.getD []) qvec)
    let filtered := withSim.filter fun p => decide (p.2 ≥ minSim)
    let enriched := filtered.map fun p =>
      { id := p.1.id
        text := p.1.sourceText
        similarity := p.2
        entities := db.entities.filter fun e => decide (e.memoryId = p.1.id)
        metadata := p.1.metadata
        screenshot := p.1.screenshot
        extractedText := p.1.extractedText
        createdAt := p.1.createdAt }
    (embSt, .ok enriched)

/- ------------------------------------------------------------------
src/services/memory.js: store / retrieve / update / delete
------------------------------------------------------------------ -/

/-- The payload of `memory.store`.  `metadataJson` stands for
`JSON.stringify(parseMetadata(data.metadata))`, an opaque string here. -/
structure StorePayload where
  text : Str
  userId : Option Str := none
  type : Option Str := none
  metadataJson : Str := "{}".data
  screenshot : Option Str := none
  extractedText : Option Str := none
  entities : List PayloadEntity := []

/-- The value returned by `storeMemory`. -/
structure StoreResult where
  memoryId : Str
  stored : Bool
  embeddingDimensions : Nat
  entitiesCount : Nat
deriving DecidableEq, Repr

/-- `data.type || 'user_memory'` etc. -/
def jsOrStr (v : Option Str) (d : Str) : Str :=
  match v with
  | some s => if s = [] then d else s
  | none => d

/-- Entity rows inserted for a memory: one row per normalised entity,
with `entity_type = entity.entity_type || entity.type` and
`normalized_value = entity.normalized || entity.value`.  Row ids are
random in the source; indices stand in for them here. -/
def entityRowsFor (memoryId : Str) (entities : List PayloadEntity) :
    List EntityRow :=
  entities.enum.map fun (i, e) =>
    { id := "ent".data ++ (toString i).data
      memoryId := memoryId
      entity := e.value
      type := e.type
      entityType := jsOrStr e.entity_type e.type
      normalizedValue := jsOrStr e.normalized e.value }

/-- `MemoryService.storeMemory(data, context)` (part_004 lines 21–141):
validate the text (trimming it), resolve the user, embed the trimmed
text (store fails and writes nothing on any embedding failure), then
insert the memory row and its entity rows.  `memoryId` abstracts the
random `generateMemoryId()`; `now` is `CURRENT_TIMESTAMP` in ms. -/
def storeMemory (model : Str → List ℚ) (now : Nat) (memoryId : Str)
    (db : Db) (embSt : EmbedderState) (data : StorePayload) (context : Ctx) :
    Db × EmbedderState × Except String StoreResult :=
  match validateMemoryText data.text with
  | .error e => (db, embSt, .error e)
  | .ok text =>
    let userId := extractUserId context
    let entities := normalizeEntities data.entities
    match generateEmbedding model now embSt text with
    | (embSt, .error e) =>
      (db, embSt, .error ("Cannot store memory without embedding: " ++ e))
    | (embSt, .ok emb) =>
      if emb.length ≠ 384 then
        (db, embSt, .error "Cannot store memory without embedding: invalid")
      else
        let row : MemoryRow :=
          { id := memoryId
            userId := userId
            type := jsOrStr data.type "user_memory".data
            sourceText := text
            metadata := data.metadataJson
            screenshot := if optStrTruthy data.screenshot then data.screenshot else none
            extractedText := if optStrTruthy data.extractedText then data.extractedText else none
            embedding := some emb
            createdAt := now
            updatedAt := now }
        ({ memory := db.memory ++ [row]
           entities := db.entities ++ entityRowsFor memoryId entities },
          embSt,
          .ok { memoryId := memoryId, stored := true
                embeddingDimensions := emb.length
                entitiesCount := entities.length })

/-- The value returned by `retrieveMemory`. -/
structure RetrievedMemory where
  id : Str
  text : Str
  entities : List EntityRow
  metadata : Str
  screenshot : Option Str
  extractedText : Option Str
  createdAt : Nat
  updatedAt : Nat
deriving DecidableEq, Repr

/-- `MemoryService.retrieveMemory(memoryId, context)` (part_004 lines
328–371): `SELECT * FROM memory WHERE id = ? AND user_id = ?`, error when
empty, plus the entity rows of the memory. -/
def retrieveMemory (db : Db) (memoryId : Str) (context : Ctx) :
    Except String RetrievedMemory :=
  let userId := extractUserId context
  match db.memory.find? (fun r => decide (r.id = memoryId ∧ r.userId = userId)) with
  | none => .error "Memory not found"
  | some m =>
    .ok { id := m.id
          text := m.sourceText
          entities := db.entities.filter fun e => decide (e.memoryId = memoryId)
          metadata := m.metadata
          screenshot := m.screenshot
          extractedText := m.extractedText
          createdAt := m.createdAt
          updatedAt := m.updatedAt }

/-- The payload of `memory.update`.  For `screenshot`/`extractedText`,
the outer `Option` is "was the property present on the object"
(`!== undefined`) and the inner value's truthiness decides between the
new value and SQL `NULL`, as in the source. -/
structure UpdatePayload where
  text : Option Str := none
  metadataJson : Option Str := none
  screenshot : Option (Option Str) := none
  extractedText : Option (Option Str) := none
  entities : Option (List PayloadEntity) := none

/-- The value returned by `updateMemory`; `embeddingRegenerated` is the
`embedding` field of the JS result. -/
structure UpdateResult where
  memoryId : Str
  updated : Bool
  embeddingRegenerated : Bool
deriving DecidableEq, Repr

/-- `new Date(ms).toISOString().slice(0, 19)` keeps `YYYY-MM-DDTHH:MM:SS`
and drops the fractional seconds: truncation to whole seconds. -/
def truncToSecond (t : Nat) : Nat :=
  t / 1000 * 1000

/-- `MemoryService.updateMemory(memoryId, updates, context)` (part_004
lines 376–487).  Looks up the row (scoped by id and user), validates and
embeds `updates.text` when it is truthy, then deletes the row and
re-inserts it with the same id: text replaced by the trimmed update (or
kept), embedding replaced only when regenerated, `created_at` re-written
through `toISOString().slice(0,19)` (whole-second truncation),
`updated_at = CURRENT_TIMESTAMP`.  When `updates.entities` is present
(any array, even empty), the entity rows are replaced. -/
def updateMemory (model : Str → List ℚ) (now : Nat)
    (db : Db) (embSt : EmbedderState) (memoryId : Str)
    (updates : UpdatePayload) (context : Ctx) :
    Db × EmbedderState × Except String UpdateResult :=
  let userId := extractUserId context
  match db.memory.find? (fun r => decide (r.id = memoryId ∧ r.userId = userId)) with
  | none => (db, embSt, .error "Memory not found")
  | some current =>
    let regenerate := optStrTruthy updates.text
    let rawText := updates.text.getD []
    let validated : Except String Unit :=
      if regenerate then (validateMemoryText rawText).map (fun _ => ()) else .ok ()
    match validated with
    | .error e => (db, embSt, .error e)
    | .ok _ =>
      let embedded : EmbedderState × Except String (Option (List ℚ)) :=
        if regenerate then
          match generateEmbedding model now embSt rawText with
          | (st, .error e) => (st, .error e)
          | (st, .ok v) => (st, .ok (some v))
        else (embSt, .ok none)
      match embedded with
      | (embSt, .error e) => (db, embSt, .error e)
      | (embSt, .ok newEmb) =>
        let newRow : MemoryRow :=
          { id := memoryId
            userId := userId
            type := jsOrStr (some current.type) "user_memory".data
            sourceText := if regenerate then jsTrim rawText else current.sourceText
            metadata :=
              match updates.metadataJson with
              | some m => if strTruthy m then m else jsOrStr (some current.metadata) "{}".data
              | none => jsOrStr (some current.metadata) "{}".data
            screenshot :=
              match updates.screenshot with
              | some v => if optStrTruthy v then v else none
              | none => current.screenshot
            extractedText :=
              match updates.extractedText with
              | some v => if optStrTruthy v then v else none
              | none => current.extractedText
            embedding :=
              match newEmb with
              | some e => some e
              | none => current.embedding
            createdAt := truncToSecond current.createdAt
            updatedAt := now }
        let memoryAfter :=
          db.memory.filter (fun r => !decide (r.id = memoryId ∧ r.userId = userId))
            ++ [newRow]
        let entitiesAfter :=
          match updates.entities with
          | some es =>
            db.entities.filter (fun e => !decide (e.memoryId = memoryId))
              ++ entityRowsFor memoryId (normalizeEntities es)
          | none => db.entities
        ({ memory := memoryAfter, entities := entitiesAfter }, embSt,
          .ok { memoryId := memoryId, updated := true
                embeddingRegenerated := regenerate })

/-- The value returned by `deleteMemory`. -/
structure DeleteResult where
  memoryId : Str
  deleted : Bool
deriving DecidableEq, Repr

/-- `MemoryService.deleteMemory(memoryId, context)` (part_004 lines
492–517): `DELETE FROM memory_entities WHERE memory_id = ?` (NOT scoped
by user), then `DELETE FROM memory WHERE id = ? AND user_id = ?`; always
returns `{memoryId, deleted: true}`. -/
def deleteMemory (db : Db) (memoryId : Str) (context : Ctx) :
    Db × DeleteResult :=
  let userId := extractUserId context
  ({ memory := db.memory.filter
        (fun r => !decide (r.id = memoryId ∧ r.userId = userId))
     entities := db.entities.filter (fun e => !decide (e.memoryId = memoryId)) },
    { memoryId := memoryId, deleted := true })

/- ------------------------------------------------------------------
src/services/memory.js: classifyConversationalQuery (lines 661–778)

Every regex used by the classifier has the restricted shape
`\bA\b.*\bB\b.*…` where `A`, `B`, … are alternations of literal
phrases made of word characters and spaces, tested with `.test()` under
the `i` flag on an already-lowercased query.  Such a regex matches iff
the parts occur left to right with word boundaries around each part.
`seqTest` decides exactly that; each pattern is listed as its expanded
phrase alternatives.
------------------------------------------------------------------ -/

/-- JS `\w`: `[A-Za-z0-9_]`. -/
def wordChar (c : Char) : Bool :=
  ('a' ≤ c && c ≤ 'z') || ('A' ≤ c && c ≤ 'Z') || ('0' ≤ c && c ≤ '9') || c = '_'

/-- `phrase` occurs in `s` at index `i` with `\b` on both sides (our
phrases begin and end with word characters). -/
def phraseAt (phrase s : Str) (i : Nat) : Bool :=
  decide ((s.drop i).take phrase.length = phrase)
  && (decide (i = 0) || !wordChar (s.getD (i - 1) ' '))
  && (decide (i + phrase.length = s.length)
      || !wordChar (s.getD (i + phrase.length) ' '))

/-- `.test()` of `\bA₁\b.*\bA₂\b.*…`: the parts occur in order, each with
word boundaries, each starting no earlier than the previous part's end
(`.*` may be empty). -/
def seqTest (parts : List (List Str)) (s : Str) (start : Nat) : Bool :=
  match parts with
  | [] => true
  | alts :: rest =>
    (List.range (s.length + 1)).any fun i =>
      decide (start ≤ i) && alts.any fun p =>
        decide (p ≠ []) && phraseAt p s i && seqTest rest s (i + p.length)

/-- Literal phrase shorthand. -/
def ph (s : String) : Str := s.data

/-- `conversationalPronouns` (line 671). -/
def conversationalPronounsParts : List (List Str) :=
  [[ph "we", ph "our", ph "you said", ph "i said", ph "you mentioned",
    ph "you told", ph "i asked", ph "we discussed", ph "we talked",
    ph "we covered"]]

/-- `anaphoricReferences` (line 674). -/
def anaphoricReferencesParts : List (List Str) :=
  [[ph "that", ph "this", ph "it", ph "those", ph "these"],
    [ph "we", ph "you", ph "i"]]

/-- `demonstratives` (line 675). -/
def demonstrativesParts : List (List Str) :=
  [[ph "that thing", ph "this topic", ph "those points", ph "these ideas"]]

/-- `temporalConversational` (line 678). -/
def temporalConversationalParts : List (List Str) :=
  [[ph "earlier", ph "before", ph "previously", ph "just now",
    ph "a moment ago", ph "you just"],
    [ph "said", ph "mentioned", ph "told", ph "discussed", ph "explained"]]

/-- `temporalConversationalReverse` (line 679). -/
def temporalConversationalReverseParts : List (List Str) :=
  [[ph "said", ph "mentioned", ph "told", ph "discussed", ph "explained"],
    [ph "earlier", ph "before", ph "previously", ph "just now",
      ph "a moment ago"]]

/-- `positionalWithContext` (lines 682–687), one entry per regex. -/
def positionalWithContextPatterns : List (List (List Str)) :=
  [[[ph "first", ph "last", ph "initial", ph "latest"],
      [ph "we", ph "you", ph "i"],
      [ph "said", ph "mentioned", ph "discussed", ph "talked"]],
    [[ph "what did i", ph "what did we", ph "what did you"],
      [ph "say", ph "ask", ph "discuss", ph "mention", ph "talk about"]],
    [[ph "beginning", ph "start", ph "end"],
      [ph "of our conversation", ph "of our discussion", ph "of our chat",
        ph "of the conversation", ph "of the discussion", ph "of the chat"]],
    [[ph "go back to", ph "return to", ph "back to"],
      [ph "what we", ph "what you", ph "what i"]]]

/-- `topicalWithContext` (lines 690–694). -/
def topicalWithContextPatterns : List (List (List Str)) :=
  [[[ph "what did we", ph "what did i", ph "what did you",
      ph "what have we", ph "what have i", ph "what have you"],
      [ph "discuss", ph "talk about", ph "cover", ph "chat about"]],
    [[ph "topics", ph "things", ph "points", ph "issues"],
      [ph "we discussed", ph "we covered", ph "we mentioned", ph "we talked about",
        ph "i discussed", ph "i covered", ph "i mentioned", ph "i talked about",
        ph "you discussed", ph "you covered", ph "you mentioned",
        ph "you talked about"]],
    [[ph "our conversation", ph "our discussion", ph "our chat"],
      [ph "about", ph "regarding", ph "concerning"]]]

/-- `overviewWithContext` (lines 697–701). -/
def overviewWithContextPatterns : List (List (List Str)) :=
  [[[ph "summarize", ph "recap", ph "sum up", ph "overview of"],
      [ph "our", ph "this", ph "the"],
      [ph "conversation", ph "discussion", ph "chat"]],
    [[ph "what did we", ph "what did i", ph "what did you",
      ph "what have we", ph "what have i", ph "what have you"],
      [ph "chat", ph "talk"],
      [ph "about"]],
    [[ph "give me a", ph "give me an"],
      [ph "summary", ph "recap", ph "overview"],
      [ph "of our conversation", ph "of our discussion",
        ph "of this conversation", ph "of this discussion",
        ph "of the conversation", ph "of the discussion"]]]

/-- `discourseMarkers` (line 704). -/
def discourseMarkersParts : List (List Str) :=
  [[ph "like you said", ph "like you mentioned", ph "like i said",
    ph "like i mentioned", ph "as you mentioned", ph "as you said",
    ph "as you explained", ph "as i mentioned", ph "as i said",
    ph "as i explained", ph "you were saying", ph "i was saying"]]

/-- The classifier's output categories. -/
inductive QueryClass where
  | GENERAL
  | POSITIONAL
  | TOPICAL
  | OVERVIEW
deriving DecidableEq, Repr

/-- `options` of `classifyConversationalQuery`. -/
structure ClassifyOptions where
  context : Option Ctx := none
  sessionId : Option Str := none

/-- The classifier's result (reasoning string elided). -/
structure ClassifyResult where
  isConversational : Bool
  confidence : ℚ
  classification : QueryClass
  hasSessionContext : Bool
  hasMessageHistory : Bool
  hasConversationContext : Bool
deriving DecidableEq, Repr

/-- `MemoryService.classifyConversationalQuery(query, options)` (part_004
lines 661–778): the deterministic rule engine, with each regex test
decided by `seqTest` on the lowercased query. -/
def classifyConversationalQuery (query : Str) (options : ClassifyOptions) :
    ClassifyResult :=
  let queryLower := jsToLower query
  let context := options.context.getD {}
  let hasSessionContext :=
    optStrTruthy context.sessionId || optStrTruthy options.sessionId
  let hasMessageHistory :=
    (match context.messageCount with
      | some n => decide (n > 0)
      | none => false) || context.hasHistory
  let hasConversationContext := hasSessionContext && hasMessageHistory
  let pronouns := seqTest conversationalPronounsParts queryLower 0
  let anaphoric := seqTest anaphoricReferencesParts queryLower 0
  let demonstr := seqTest demonstrativesParts queryLower 0
  let temporal := seqTest temporalConversationalParts queryLower 0
  let temporalRev := seqTest temporalConversationalReverseParts queryLower 0
  let positional := positionalWithContextPatterns.any
    (fun p => seqTest p queryLower 0)
  let topical := topicalWithContextPatterns.any
    (fun p => seqTest p queryLower 0)
  let overview := overviewWithContextPatterns.any
    (fun p => seqTest p queryLower 0)
  let discourse := seqTest discourseMarkersParts queryLower 0
  let (classification, confidence) :=
    if !hasConversationContext then
      if discourse || (pronouns && (temporal || temporalRev)) then
        (QueryClass.POSITIONAL, (70 : ℚ) / 100)
      else
        (QueryClass.GENERAL, (95 : ℚ) / 100)
    else
      if discourse then (QueryClass.POSITIONAL, (98 : ℚ) / 100)
      else if positional || temporal || temporalRev then
        (QueryClass.POSITIONAL, (95 : ℚ) / 100)
      else if topical then (QueryClass.TOPICAL, (92 : ℚ) / 100)
      else if overview then (QueryClass.OVERVIEW, (90 : ℚ) / 100)
      else if (anaphoric || demonstr) && pronouns then
        (QueryClass.POSITIONAL, (85 : ℚ) / 100)
      else if pronouns then (QueryClass.GENERAL, (60 : ℚ) / 100)
      else (QueryClass.GENERAL, (50 : ℚ) / 100)
  { isConversational := decide (classification ≠ QueryClass.GENERAL)
    confidence := confidence
    classification := classification
    hasSessionContext := hasSessionContext
    hasMessageHistory := hasMessageHistory
    hasConversationContext := hasConversationContext }

/- ------------------------------------------------------------------
src/services/retention.js
------------------------------------------------------------------ -/

/-- The side-effecting statements `RetentionService.purge` issues after
its count query, in order. -/
inductive RetentionOp where
  | deleteEntities
  | deleteMemories
  | compactIndex
  | checkpoint
  | rebuildIndex
deriving DecidableEq, Repr

/-- `MIN(created_at)` over the memory table (0 on an empty table, unused
there since `check` returns early). -/
def minCreatedAt : List MemoryRow → Nat
  | [] => 0
  | r :: rs => rs.foldl (fun m x => min m x.createdAt) r.createdAt

/-- `MAX(created_at)` over the memory table. -/
def maxCreatedAt : List MemoryRow → Nat
  | [] => 0
  | r :: rs => rs.foldl (fun m x => max m x.createdAt) r.createdAt

/-- One day in milliseconds. -/
def dayMs : Nat := 86400000

/-- `RetentionService.purge(oldestDate)` (retention.js lines 134–187):
cutoff = oldest + purgeDays days (the source's calendar `setDate`
arithmetic, modelled with fixed-length days); when the count of records
older than the cutoff is zero nothing happens, otherwise entity rows of
those records are deleted, then the records, then the index is
compacted, a checkpoint runs and the index is rebuilt. -/
def retentionPurge (db : Db) (purgeDays : Nat) (oldest : Nat) :
    Db × List RetentionOp :=
  let cutoff := oldest + purgeDays * dayMs
  let purged := db.memory.filter fun r => decide (r.createdAt < cutoff)
  if purged.length = 0 then (db, [])
  else
    let purgedIds := purged.map (·.id)
    ({ memory := db.memory.filter fun r => !decide (r.createdAt < cutoff)
       entities := db.entities.filter fun e => !purgedIds.contains e.memoryId },
      [RetentionOp.deleteEntities, RetentionOp.deleteMemories,
        RetentionOp.compactIndex, RetentionOp.checkpoint,
        RetentionOp.rebuildIndex])

/-- `RetentionService.check()` (retention.js lines 89–128): with no
rows, return; otherwise compute
`dataAgeDays = floor((newest - oldest) / day)` and purge exactly when it
exceeds `maxDays`. -/
def retentionCheck (db : Db) (maxDays purgeDays : Nat) :
    Db × List RetentionOp :=
  if db.memory = [] then (db, [])
  else
    let oldest := minCreatedAt db.memory
    let newest := maxCreatedAt db.memory
    let dataAgeDays := (newest - oldest) / dayMs
    if dataAgeDays ≤ maxDays then (db, [])
    else retentionPurge db purgeDays oldest

/-- Constructor defaults `parseInt(process.env.RETENTION_MAX_DAYS || '1825')`
and `parseInt(process.env.RETENTION_PURGE_DAYS || '365')`. -/
def retentionDefaultMaxDays : Nat := 1825

/-- Default purge window (days). -/
def retentionDefaultPurgeDays : Nat := 365

/- ------------------------------------------------------------------
src/monitor/monitorService.js: tick scheduling
------------------------------------------------------------------ -/

/-- `MonitorService.start()` (monitorService.js lines 29–55) runs one
tick immediately and then `setInterval(() => this.tick().catch(…),
captureInterval)`; the callback invokes `tick` unconditionally — there
is no in-flight guard.  Tick start times up to time `t` (ms) are
therefore `0, interval, 2·interval, …`, independent of how long any
tick takes. -/
def tickStartTimes (interval t : Nat) : List Nat :=
  (List.range (t / interval + 1)).map (· * interval)

/-- Number of ticks executing at time `t` when every tick runs for
`duration` ms: ticks started at `s ≤ t` that have not finished
(`t < s + duration`). -/
def ticksExecutingAt (interval duration t : Nat) : Nat :=
  (tickStartTimes interval t).countP fun s => decide (s ≤ t ∧ t < s + duration)

/-- The observable state of `MonitorService` (constructor, lines 10–24):
its counters are `captureCount`, `skipCount` and `errorCount`; no
overrun counter exists. -/
structure MonitorState where
  isRunning : Bool := false
  captureInterval : Nat := 10000
  idleTimeout : Nat := 300000
  lastAppName : Option Str := none
  lastWindowTitle : Option Str := none
  captureCount : Nat := 0
  skipCount : Nat := 0
  errorCount : Nat := 0
deriving DecidableEq, Repr

/- ------------------------------------------------------------------
src/monitor/ocrService.js: filterGibberish (lines 84–321)

The function's regexes are embedded as explicit matchers.  Each matcher
`Str → Option Nat` returns, for the given suffix of the text, the
length the regex matches starting exactly there, reproducing the
JS engine's leftmost/greedy/backtracking behaviour for that pattern
(analysed per pattern in the comments); global scans then apply the
matcher at successive positions exactly like `exec`/`replace` with the
`g` flag.
------------------------------------------------------------------ -/

/-- ASCII letter. -/
def isAsciiLetter (c : Char) : Bool :=
  ('a' ≤ c && c ≤ 'z') || ('A' ≤ c && c ≤ 'Z')

/-- ASCII digit (`\d`). -/
def isDigitCh (c : Char) : Bool :=
  '0' ≤ c && c ≤ '9'

/-- ASCII alphanumeric. -/
def isAlnum (c : Char) : Bool :=
  isAsciiLetter c || isDigitCh c

/-- English vowel, either case (`[aeiouAEIOU]`). -/
def isVowel (c : Char) : Bool :=
  c = 'a' || c = 'e' || c = 'i' || c = 'o' || c = 'u'
  || c = 'A' || c = 'E' || c = 'I' || c = 'O' || c = 'U'

/-- Length of the run of characters satisfying `p` at the head. -/
def runLen (p : Char → Bool) (s : Str) : Nat :=
  (s.takeWhile p).length

/-- Case-insensitive literal at the head. -/
def litCI (w : String) (s : Str) : Bool :=
  jsToLower (s.take w.data.length) = jsToLower w.data

/-- Case-sensitive literal at the head. -/
def litCS (w : String) (s : Str) : Bool :=
  s.take w.data.length = w.data

/-- `[AP]M` with the `i` flag. -/
def matchAmPm (s : Str) : Option Nat :=
  match s with
  | a :: m :: _ =>
    if (a.toLower = 'a' || a.toLower = 'p') && m.toLower = 'm' then some 2 else none
  | _ => none

/-- `\d{1,2}` followed by the literal `c`: the greedy two-digit take
backtracks to one digit, so the digit run must have length 1 or 2 and be
followed by `c`; returns digits consumed (excluding `c`). -/
def digits12Before (c : Char) (s : Str) : Option Nat :=
  let r := runLen isDigitCh s
  if r = 0 || r > 2 then none
  else if (s.drop r).headD ' ' = c then some r else none

/-- `\d{1,2}\s+`: the digit run must have length 1 or 2 (a longer run
leaves a digit where whitespace is required); consumes digits and the
maximal whitespace run, which must be non-empty. -/
def digits12ThenWs (s : Str) : Option Nat :=
  let r := runLen isDigitCh s
  if r = 0 || r > 2 then none
  else
    let w := runLen isWs (s.drop r)
    if w = 0 then none else some (r + w)

/-- `\d{1,2}:\d{2}\s*[AP]M/i` (timestamp pattern 3, also the core of
patterns 1–2): 1–2 digits directly before `:`, two digits, optional
whitespace, AM/PM marker. -/
def matchClockCore (s : Str) : Option Nat :=
  match digits12Before ':' s with
  | none => none
  | some r =>
    let s1 := s.drop (r + 1)
    if runLen isDigitCh s1 < 2 then none
    else
      let s2 := s1.drop 2
      let w := runLen isWs s2
      match matchAmPm (s2.drop w) with
      | some n => some (r + 1 + 2 + w + n)
      | none => none

/-- `(?:Mon|Tue|Wed|Thu|Fri|Sat|Sun)/i` prefix. -/
def matchWeekdayCI (s : Str) : Bool :=
  ["Mon", "Tue", "Wed", "Thu", "Fri", "Sat", "Sun"].any fun w => litCI w s

/-- Timestamp pattern 1 (ocrService.js line 91):
`(?:Mon|…|Sun)[A-Za-z]*\d{1,2}\s+\d{1,2}:\d{2}\s*[AP]M/i`. -/
def matchTs1 (s : Str) : Option Nat :=
  if !matchWeekdayCI s then none
  else
    let s0 := s.drop 3
    let nl := runLen isAsciiLetter s0
    let s1 := s0.drop nl
    match digits12ThenWs s1 with
    | none => none
    | some n1 =>
      match matchClockCore (s1.drop n1) with
      | none => none
      | some n2 => some (3 + nl + n1 + n2)

/-- Timestamp pattern 2 (line 92): like pattern 1 with `\s*` between the
letters and the day digits. -/
def matchTs2 (s : Str) : Option Nat :=
  if !matchWeekdayCI s then none
  else
    let s0 := s.drop 3
    let nl := runLen isAsciiLetter s0
    let s1 := s0.drop nl
    let w0 := runLen isWs s1
    let s2 := s1.drop w0
    match digits12ThenWs s2 with
    | none => none
    | some n1 =>
      match matchClockCore (s2.drop n1) with
      | none => none
      | some n2 => some (3 + nl + w0 + n1 + n2)

/-- Timestamp pattern 3 (line 93): `\d{1,2}:\d{2}\s*[AP]M/i`. -/
def matchTs3 (s : Str) : Option Nat :=
  matchClockCore s

/-- Timestamp pattern 4 (line 94):
`\d{4}-\d{2}-\d{2}(?:T\d{2}:\d{2}:\d{2})?`.  Exact-count quantifiers do
not backtrack, so each digit group must be followed by its delimiter;
the optional time part is taken greedily when it matches in full. -/
def matchTs4 (s : Str) : Option Nat :=
  let r := runLen isDigitCh s
  if r ≠ 4 || (s.drop 4).headD ' ' ≠ '-' then none
  else
    let s1 := s.drop 5
    let r2 := runLen isDigitCh s1
    if r2 ≠ 2 || (s1.drop 2).headD ' ' ≠ '-' then none
    else
      let s2 := s1.drop 3
      if runLen isDigitCh s2 < 2 then none
      else
        let s3 := s2.drop 2
        let timePart : Option Nat :=
          match s3 with
          | 'T' :: t1 =>
            if runLen isDigitCh t1 = 2 && (t1.drop 2).headD ' ' = ':' then
              let t2 := t1.drop 3
              if runLen isDigitCh t2 = 2 && (t2.drop 2).headD ' ' = ':' then
                let t3 := t2.drop 3
                if runLen isDigitCh t3 ≥ 2 then some 9 else none
              else none
            else none
          | _ => none
        some (10 + timePart.getD 0)

/-- `\d{1,2}(?:st|nd|rd|th)?,?\s*\d{4}` — the day/year tail of the date
patterns 5–6, with the greedy optional suffix and comma backtracking. -/
def matchDateTail (s : Str) : Option Nat :=
  let yearAt (acc : Nat) (t : Str) : Option Nat :=
    let w := runLen isWs t
    if runLen isDigitCh (t.drop w) ≥ 4 then some (acc + w + 4) else none
  let commaOpt (acc : Nat) (t : Str) : Option Nat :=
    match t with
    | ',' :: t1 =>
      match yearAt (acc + 1) t1 with
      | some n => some n
      | none => yearAt acc t
    | _ => yearAt acc t
  let sufOpt (acc : Nat) (t : Str) : Option Nat :=
    let hit := ["st", "nd", "rd", "th"].filterMap fun suf =>
      if litCI suf t then commaOpt (acc + 2) (t.drop 2) else none
    match hit.head? with
    | some n => some n
    | none => commaOpt acc t
  let r := runLen isDigitCh s
  if r = 0 then none
  else
    let tryLen (k : Nat) : Option Nat :=
      if r < k then none else sufOpt k (s.drop k)
    match tryLen 2 with
    | some n => some n
    | none => tryLen 1

/-- Timestamp pattern 5 (line 95): full month name, day, optional
ordinal suffix, optional comma, year (`/i`). -/
def matchTs5 (s : Str) : Option Nat :=
  let months := ["January", "February", "March", "April", "May", "June",
    "July", "August", "September", "October", "November", "December"]
  match months.filterMap (fun m =>
      if litCI m s then
        let s0 := s.drop m.data.length
        let w := runLen isWs s0
        if w = 0 then none
        else
          (matchDateTail (s0.drop w)).map (fun n => m.data.length + w + n)
      else none) |>.head? with
  | some n => some n
  | none => none

/-- Timestamp pattern 6 (line 96): month abbreviation, date tail, then
an optional `\s+at\s+\d{1,2}:\d{2}\s*[AP]M` part taken greedily. -/
def matchTs6 (s : Str) : Option Nat :=
  let months := ["Jan", "Feb", "Mar", "Apr", "May", "Jun", "Jul", "Aug",
    "Sep", "Oct", "Nov", "Dec"]
  if !months.any (fun m => litCI m s) then none
  else
    let s0 := s.drop 3
    let w := runLen isWs s0
    if w = 0 then none
    else
      match matchDateTail (s0.drop w) with
      | none => none
      | some n =>
        let base := 3 + w + n
        let s1 := s.drop base
        let atPart : Option Nat :=
          let w1 := runLen isWs s1
          if w1 = 0 then none
          else
            let s2 := s1.drop w1
            if !litCI "at" s2 then none
            else
              let s3 := s2.drop 2
              let w2 := runLen isWs s3
              if w2 = 0 then none
              else
                (matchClockCore (s3.drop w2)).map (fun m => w1 + 2 + w2 + m)
        some (base + atPart.getD 0)

/-- The six protected timestamp patterns, in source order. -/
def timestampMatchers : List (Str → Option Nat) :=
  [matchTs1, matchTs2, matchTs3, matchTs4, matchTs5, matchTs6]

/-- `exec` with the `g` flag: successive non-overlapping matches,
scanning left to right; on a match of length `n ≥ 1` the scan resumes
after it.  `fuel` (instantiated with the text length) only bounds the
recursion. -/
def execAllGo (m : Str → Option Nat) : Nat → Str → Nat → List (Nat × Nat)
  | 0, _, _ => []
  | _, [], _ => []
  | fuel + 1, s@(_ :: rest), i =>
    match m s with
    | some (n + 1) => (i, n + 1) :: execAllGo m fuel (s.drop (n + 1)) (i + (n + 1))
    | _ => execAllGo m fuel rest (i + 1)

/-- All matches of `m` in `s` as (index, length) pairs. -/
def execAll (m : Str → Option Nat) (s : Str) : List (Nat × Nat) :=
  execAllGo m s.length s 0

/-- A timestamp match recorded in `allMatches` (line 105). -/
structure TsMatch where
  value : Str
  index : Nat
  len : Nat
deriving DecidableEq, Repr

/-- `allMatches` (lines 100–107): matches of all six patterns, in
pattern order then text order. -/
def allTimestampMatches (text : Str) : List TsMatch :=
  timestampMatchers.flatMap fun m =>
    (execAll m text).map fun p =>
      { value := (text.drop p.1).take p.2, index := p.1, len := p.2 }

/-- Stable insertion for descending length (JS `sort((a,b) => b.length -
a.length)` is stable: equal lengths keep push order). -/
def insertLenDesc (a : TsMatch) : List TsMatch → List TsMatch
  | [] => [a]
  | b :: l => if a.len > b.len then a :: b :: l else b :: insertLenDesc a l

/-- Sort matches by descending length, stably. -/
def sortLenDesc (l : List TsMatch) : List TsMatch :=
  l.foldl (fun acc a => insertLenDesc a acc) []

/-- JS `String.prototype.replace` with a *string* pattern: replace the
first occurrence only. -/
def replaceFirstStr (s pat repl : Str) : Str :=
  match (List.range (s.length + 1)).find?
      (fun i => decide ((s.drop i).take pat.length = pat)) with
  | some i => s.take i ++ repl ++ s.drop (i + pat.length)
  | none => s

/-- `replace(new RegExp(placeholder, 'g'), ts)` where the pattern is a
literal with no metacharacters: replace all non-overlapping occurrences
left to right. -/
def replaceAllGo (pat repl : Str) : Nat → Str → Str
  | 0, s => s
  | _, [] => []
  | fuel + 1, s@(c :: rest) =>
    if pat ≠ [] && decide (s.take pat.length = pat) then
      repl ++ replaceAllGo pat repl fuel (s.drop pat.length)
    else
      c :: replaceAllGo pat repl fuel rest

/-- All-occurrence literal replacement. -/
def replaceAllStr (s pat repl : Str) : Str :=
  replaceAllGo pat repl s.length s

/-- Step 0 (lines 108–120): walk the length-sorted matches, skip any
that overlaps an already-replaced original range, otherwise replace the
first occurrence of the match's text with the next
`XXTIMESTAMPXX<idx>` placeholder.  Returns the protected text and the
placeholder map in insertion order (`Object.entries` preserves it for
these non-numeric keys). -/
def protectGo : List TsMatch → Str → List (Str × Str) → List (Nat × Nat) →
    Nat → Str × List (Str × Str)
  | [], t, pm, _, _ => (t, pm)
  | m :: rest, t, pm, ranges, idx =>
    if ranges.any (fun r => decide (m.index < r.1 + r.2 ∧ r.1 < m.index + m.len)) then
      protectGo rest t pm ranges idx
    else
      let placeholder := "XXTIMESTAMPXX".data ++ (toString idx).data
      protectGo rest (replaceFirstStr t m.value placeholder)
        (pm ++ [(placeholder, m.value)]) (ranges ++ [(m.index, m.len)]) (idx + 1)

/-- Protect timestamps: sort all matches by length (desc, stable) and
substitute placeholders. -/
def protectTimestamps (text : Str) : Str × List (Str × Str) :=
  protectGo (sortLenDesc (allTimestampMatches text)) text [] [] 0

/-- The separator class `[\s.,;:!?-]` of Step A. -/
def isSepA (c : Char) : Bool :=
  isWs c || c = '.' || c = ',' || c = ';' || c = ':' || c = '!' || c = '?' || c = '-'

/-- Step A repetition `(?:\b[a-zA-Z]\b[\s.,;:!?-]*)`: count greedy
repetitions from this position.  `prev` is the character before the
position (for the leading `\b`); returns (consumed, repetitions). -/
def stepAGo : Nat → Option Char → Str → Nat × Nat
  | 0, _, _ => (0, 0)
  | _, _, [] => (0, 0)
  | fuel + 1, prev, c :: rest =>
    if isAsciiLetter c
        && (match prev with | none => true | some p => !wordChar p)
        && (match rest with | [] => true | d :: _ => !wordChar d) then
      let sep := rest.takeWhile isSepA
      let prevNext := some (sep.getLastD c)
      let (consumed, reps) := stepAGo fuel prevNext (rest.drop sep.length)
      (1 + sep.length + consumed, reps + 1)
    else (0, 0)

/-- Step A matcher (line 173): `/(?:\b[a-zA-Z]\b[\s.,;:!?-]*){4,}/g` —
a maximal repetition of at least 4 single-letter tokens. -/
def stepAMatch (prev : Option Char) (s : Str) : Option Nat :=
  let (consumed, reps) := stepAGo s.length prev s
  if reps ≥ 4 then some consumed else none

/-- The symbol class `[^a-zA-Z0-9\s]` of Step B. -/
def isSymB (c : Char) : Bool :=
  !isAlnum c && !isWs c

/-- Step B repetition `(?:[^a-zA-Z0-9\s]{2,}\s*)`: greedy repetitions;
each takes a maximal symbol run of length ≥ 2 plus trailing
whitespace. -/
def stepBGo : Nat → Str → Nat × Nat
  | 0, _ => (0, 0)
  | fuel + 1, s =>
    let sym := runLen isSymB s
    if sym < 2 then (0, 0)
    else
      let w := runLen isWs (s.drop sym)
      let (consumed, reps) := stepBGo fuel (s.drop (sym + w))
      (sym + w + consumed, reps + 1)

/-- Step B matcher (line 176): `/(?:[^a-zA-Z0-9\s]{2,}\s*){3,}/g`. -/
def stepBMatch (s : Str) : Option Nat :=
  let (consumed, reps) := stepBGo s.length s
  if reps ≥ 3 then some consumed else none

/-- Global regex replacement: scan positions left to right, substituting
`repl` for each match and resuming after it; `prev` carries the
character preceding the current position in the original text (for `\b`
at a match's start). -/
def replaceScanGo (m : Option Char → Str → Option Nat) (repl : Str) :
    Nat → Option Char → Str → Str
  | 0, _, s => s
  | _, _, [] => []
  | fuel + 1, prev, s@(c :: rest) =>
    match m prev s with
    | some (n + 1) =>
      repl ++ replaceScanGo m repl fuel (some (s.getD n ' ')) (s.drop (n + 1))
    | _ => c :: replaceScanGo m repl fuel (some c) rest

/-- Global replacement over a whole string. -/
def replaceScan (m : Option Char → Str → Option Nat) (repl s : Str) : Str :=
  replaceScanGo m repl s.length none s

/-- `text.split(/\s+/).filter(w => w.length > 0)`. -/
def splitWsGo : Str → Str → List Str
  | acc, [] => if acc = [] then [] else [acc.reverse]
  | acc, c :: rest =>
    if isWs c then
      if acc = [] then splitWsGo [] rest else acc.reverse :: splitWsGo [] rest
    else splitWsGo (c :: acc) rest

/-- Whitespace tokenisation dropping empty tokens. -/
def splitWs (s : Str) : List Str :=
  splitWsGo [] s

/-- `w.replace(/[^a-zA-Z0-9-]/g, '')`. -/
def cleanToken (w : Str) : Str :=
  w.filter fun c => isAlnum c || c = '-'

/-- `/\.[a-zA-Z]{2,4}$/.test(w)`: the word ends in a dot followed by
2–4 letters. -/
def endsWithDotExt (w : Str) : Bool :=
  [2, 3, 4].any fun k =>
    decide (w.length ≥ k + 1)
    && (w.drop (w.length - k)).all isAsciiLetter
    && decide ((w.drop (w.length - k - 1)).headD ' ' = '.')

/-- `/^[^aeiouAEIOU]{3,}/.test(alpha)`: at least three leading
non-vowels. -/
def leading3Cons (alpha : Str) : Bool :=
  decide (alpha.length ≥ 3) && (alpha.take 3).all fun c => !isVowel c

/-- `/[^aeiouAEIOU]{4,}$/.test(alpha)`: at least four trailing
non-vowels. -/
def trailing4Cons (alpha : Str) : Bool :=
  decide (alpha.length ≥ 4) && (alpha.drop (alpha.length - 4)).all fun c => !isVowel c

/-- The `protectedWords` set (ocrService.js lines 125–168), in source
order. -/
def protectedWordsList : List String :=
  ["the", "and", "for", "are", "but", "not", "you", "all", "can", "had",
    "her", "was", "one",
    "our", "out", "has", "his", "how", "its", "may", "new", "now", "old",
    "see", "way", "who",
    "did", "get", "let", "say", "she", "too", "use", "him", "man", "run",
    "set", "try", "ask",
    "own", "put", "big", "end", "few", "got", "why", "yes", "yet", "ago",
    "add", "also", "back",
    "been", "call", "came", "come", "each", "find", "from", "give", "good",
    "have", "help",
    "here", "high", "home", "just", "keep", "know", "last", "left", "life",
    "like", "line",
    "list", "long", "look", "made", "make", "many", "more", "most", "much",
    "must", "name",
    "next", "only", "open", "over", "part", "play", "read", "real", "same",
    "show", "side",
    "some", "such", "sure", "take", "tell", "text", "than", "that", "them",
    "then", "they",
    "this", "time", "turn", "used", "very", "want", "well", "went", "what",
    "when", "will",
    "with", "word", "work", "year", "your", "about", "after", "again",
    "being", "below",
    "between", "both", "build", "check", "close", "could", "every", "first",
    "found", "great",
    "group", "house", "large", "later", "learn", "never", "night", "number",
    "order", "other",
    "place", "point", "right", "shall", "since", "small", "start", "state",
    "still", "story",
    "think", "three", "under", "until", "using", "water", "where", "which",
    "while", "world",
    "would", "write", "young", "before", "change", "create", "delete",
    "during", "follow",
    "memory", "screen", "search", "server", "should", "system", "update",
    "window",
    "at", "of", "in", "to", "or", "an", "is", "it", "on", "by", "no", "if",
    "do", "so", "up",
    "as", "be", "he", "we", "me",
    "KB", "MB", "GB", "TB", "PDF", "PNG", "JPG", "SVG", "ZIP", "CSV",
    "DOC", "XLS",
    "Document", "Image", "Folder", "Network", "Shared", "Tags", "Modified",
    "Created",
    "Information",
    "File", "Edit", "View", "Go", "Name", "Size", "Kind", "Date", "Type",
    "Window", "Help",
    "AirDrop", "Recents", "Desktop", "Documents", "Downloads",
    "Applications",
    "iCloud", "Drive", "Locations", "Favorites", "Finder", "Safari",
    "Chrome", "Warp",
    "Markup", "More", "Show",
    "info", "level", "message", "error", "warn", "debug", "confidence",
    "threshold",
    "capture", "stored", "Screen", "Diff", "main", "true", "false", "null",
    "AI", "ML", "SDK", "LLM", "RAG", "NLP",
    "POST", "GET", "PUT", "DELETE", "MCP", "API", "URL", "HTTP", "HTTPS",
    "HTML", "CSS", "JSON", "SQL", "OCR", "NPM", "CLI", "IDE", "GUI",
    "RAM", "CPU", "GPU", "SSD", "USB", "DOM", "SSH", "FTP", "DNS",
    "TCP", "UDP", "AWS", "GCP", "ENV", "PM", "AM", "EST", "UTC", "PST",
    "CST",
    "misc", "data", "test", "config", "index", "setup"]

/-- `protectedLower.has(w)` (line 170): case-insensitive membership. -/
def isProtectedLower (w : Str) : Bool :=
  protectedWordsList.any fun p => jsToLower p.data = w

/-- `isNonsenseWord(w)` (lines 183–212), clause for clause. -/
def isNonsenseWord (w : Str) : Bool :=
  if strStarts "XXTIMESTAMPXX".data w || strStarts "XXPROTECTXX".data w then false
  else if w = "---".data then false
  else if isProtectedLower (jsToLower (cleanToken w)) then false
  else if w ≠ [] && w.all isDigitCh then false
  else if w.any isDigitCh && decide (w.length ≥ 3) then false
  else if endsWithDotExt w then false
  else if w.contains '-' && decide (w.length ≥ 5) then false
  else
    let alpha := w.filter isAsciiLetter
    if alpha = [] then false
    else if alpha.length ≤ 2 then true
    else
      let vowels := (alpha.filter isVowel).length
      if vowels = 0 then true
      else if alpha.length ≤ 4 && decide (vowels * 5 < alpha.length) then true
      else if leading3Cons alpha && decide (alpha.length ≤ 5) then true
      else trailing4Cons alpha

/-- Step C window scan (lines 214–221): indices `i` with at least 4
nonsense words among `words[i..i+6)`. -/
def gibberishRanges (words : List Str) : List (Nat × Nat) :=
  if words.length < 6 then []
  else
    (List.range (words.length - 6 + 1)).filterMap fun i =>
      if ((words.drop i).take 6).countP isNonsenseWord ≥ 4 then
        some (i, i + 6)
      else none

/-- Range merging (lines 224–231). -/
def mergeRangesGo : (Nat × Nat) → List (Nat × Nat) → List (Nat × Nat)
  | last, [] => [last]
  | last, r :: rest =>
    if r.1 ≤ last.2 then mergeRangesGo (last.1, max last.2 r.2) rest
    else last :: mergeRangesGo r rest

/-- Merge overlapping/adjacent ranges. -/
def mergeRanges : List (Nat × Nat) → List (Nat × Nat)
  | [] => []
  | r :: rest => mergeRangesGo r rest

/-- Membership in the merged removal set (lines 233–238). -/
def inRemoveSet (ranges : List (Nat × Nat)) (i : Nat) : Bool :=
  ranges.any fun r => decide (r.1 ≤ i ∧ i < r.2)

/-- Step C removal pass (lines 239–252): marked words are dropped,
except placeholders and protected words; each removed run leaves one
`---`. -/
def windowRemoveGo (ranges : List (Nat × Nat)) :
    List Str → Nat → Bool → List Str
  | [], _, _ => []
  | w :: rest, i, lastRemoved =>
    if inRemoveSet ranges i
        && !strStarts "XXTIMESTAMPXX".data w
        && !isProtectedLower (jsToLower (cleanToken w)) then
      (if lastRemoved then [] else ["---".data])
        ++ windowRemoveGo ranges rest (i + 1) true
    else w :: windowRemoveGo ranges rest (i + 1) false

/-- `filtered.join(' ')` / `result.join(' ')`. -/
def joinSpace (ws : List Str) : Str :=
  List.intercalate [' '] ws

/-- Step D (lines 258–306): individual-token cleanup with the same
structural heuristics, collapsing removed runs to `---`. -/
def stepDGo : List Str → Bool → List Str
  | [], _ => []
  | w :: rest, lastRemoved =>
    if w = "---".data || strStarts "XXTIMESTAMPXX".data w then
      w :: stepDGo rest false
    else if isProtectedLower (jsToLower (cleanToken w)) then
      w :: stepDGo rest false
    else
      let alpha := w.filter isAsciiLetter
      if alpha = [] then w :: stepDGo rest false
      else if endsWithDotExt w
          || (w.contains '-' && decide (w.length ≥ 5))
          || (w.any isDigitCh && decide (w.length ≥ 3)) then
        w :: stepDGo rest false
      else
        let vowels := (alpha.filter isVowel).length
        let isLikelyNonsense :=
          decide (alpha.length ≤ 2)
          || (decide (alpha.length ≥ 3) && decide (vowels = 0))
          || (decide (alpha.length ≤ 4) && decide (vowels * 5 < alpha.length))
          || (leading3Cons alpha && decide (alpha.length ≤ 5))
          || trailing4Cons alpha
        if isLikelyNonsense then
          (if lastRemoved then [] else ["---".data]) ++ stepDGo rest true
        else w :: stepDGo rest false

/-- Step E collapse matcher (line 314): `/(?:\s*---\s*)+/g`. -/
def collapseGo : Nat → Str → Nat × Nat
  | 0, _ => (0, 0)
  | fuel + 1, s =>
    let w1 := runLen isWs s
    let s1 := s.drop w1
    if litCS "---" s1 then
      let w2 := runLen isWs (s1.drop 3)
      let (consumed, reps) := collapseGo fuel (s1.drop (3 + w2))
      (w1 + 3 + w2 + consumed, reps + 1)
    else (0, 0)

/-- Delimiter-run matcher. -/
def collapseMatch (s : Str) : Option Nat :=
  let (consumed, reps) := collapseGo s.length s
  if reps ≥ 1 then some consumed else none

/-- Step F leading strip (line 317): `replace(/^\s*---\s*/, '')`. -/
def stripLeadingDelim (s : Str) : Str :=
  let w := runLen isWs s
  if litCS "---" (s.drop w) then
    let s1 := s.drop (w + 3)
    s1.drop (runLen isWs s1)
  else s

/-- Step F trailing strip (line 317): `replace(/\s*---\s*$/, '')` — the
leftmost position from which whitespace, `---`, whitespace reach the
end. -/
def stripTrailingDelim (s : Str) : Str :=
  match (List.range (s.length + 1)).find? (fun i =>
      let t := s.drop i
      let w1 := runLen isWs t
      let t1 := t.drop w1
      litCS "---" t1 && (t1.drop 3).all isWs) with
  | some i => s.take i
  | none => s

/-- `replace(/\s+/g, ' ')`. -/
def collapseWsGo : Nat → Str → Str
  | 0, s => s
  | _, [] => []
  | fuel + 1, c :: rest =>
    if isWs c then ' ' :: collapseWsGo fuel (rest.dropWhile isWs)
    else c :: collapseWsGo fuel rest

/-- Whitespace-run collapsing. -/
def collapseWs (s : Str) : Str :=
  collapseWsGo s.length s

/-- `filterGibberish(text)` (ocrService.js lines 84–321): protect
timestamps, replace single-letter runs and punctuation runs with the
delimiter, run the sliding-window and individual nonsense passes,
restore placeholders, collapse delimiters and whitespace. -/
def filterGibberish (text : Str) : Str :=
  let (t0, pm) := protectTimestamps text
  let tA := replaceScan stepAMatch " --- ".data t0
  let tB := replaceScan (fun _ s => stepBMatch s) " --- ".data tA
  let wordsC := splitWs tB
  let ranges := gibberishRanges wordsC
  let tC :=
    if ranges = [] then tB
    else joinSpace (windowRemoveGo (mergeRanges ranges) wordsC 0 false)
  let tD := joinSpace (stepDGo (splitWs tC) false)
  let tE := pm.foldl (fun t p => replaceAllStr t p.1 p.2) tD
  let tE2 := replaceScan (fun _ s => collapseMatch s) " --- ".data tE
  let tF := stripTrailingDelim (stripLeadingDelim tE2)
  jsTrim (collapseWs tF)

/- ==================================================================
Theorems
================================================================== -/

set_option maxRecDepth 200000

/-- Claim C4: classifying the query "what did I say first?" with context
`{sessionId: "s1", messageCount: 5}` returns `isConversational = true`,
classification POSITIONAL and confidence ≥ 0.90 (it is exactly 0.95, from
the positional-with-context rule), while the same query with no session
context is classified GENERAL. -/
theorem C4_classifier_positional_hit :
    (classifyConversationalQuery "what did I say first?".data
        { context := some { sessionId := some "s1".data, messageCount := some 5 } }).isConversational
        = true
    ∧ (classifyConversationalQuery "what did I say first?".data
        { context := some { sessionId := some "s1".data, messageCount := some 5 } }).classification
        = QueryClass.POSITIONAL
    ∧ (90 : ℚ)/100 ≤ (classifyConversationalQuery "what did I say first?".data
        { context := some { sessionId := some "s1".data, messageCount := some 5 } }).confidence
    ∧ (classifyConversationalQuery "what did I say first?".data {}).classification
        = QueryClass.GENERAL := by
  refine ⟨rfl, rfl, ?_, rfl⟩
  have h : (classifyConversationalQuery "what did I say first?".data
      { context := some { sessionId := some "s1".data, messageCount := some 5 } }).confidence
      = (95 : ℚ)/100 := rfl
  rw [h]
  norm_num

/-- Claim C7, counterexample: the universal timestamp-preservation
property fails.  The input consisting of the eleven clock times
"1:00AM" … "11:00AM" contains "9:00AM" as a protected-pattern timestamp
match, yet the filtered output does not contain "9:00AM": during
restoration the placeholder `XXTIMESTAMPXX1` is also found as a prefix of
`XXTIMESTAMPXX10`, corrupting the tenth protected value. -/
theorem C7_counterexample :
    ((allTimestampMatches
        "1:00AM 2:00AM 3:00AM 4:00AM 5:00AM 6:00AM 7:00AM 8:00AM 9:00AM 10:00AM 11:00AM".data).any
      (fun m => m.value = "9:00AM".data)) = true
    ∧ containsSub "9:00AM".data
        "1:00AM 2:00AM 3:00AM 4:00AM 5:00AM 6:00AM 7:00AM 8:00AM 9:00AM 10:00AM 11:00AM".data
        = true
    ∧ containsSub "9:00AM".data
        (filterGibberish
          "1:00AM 2:00AM 3:00AM 4:00AM 5:00AM 6:00AM 7:00AM 8:00AM 9:00AM 10:00AM 11:00AM".data)
        = false := by
  exact ⟨rfl, rfl, rfl⟩

/-- Does the whitespace-tokenised string contain a run of 4 consecutive
single-letter tokens? -/
def fourSingleLetterRun (s : Str) : Bool :=
  let ws := splitWs s
  (List.range ws.length).any fun i =>
    decide (((ws.drop i).take 4).length = 4)
    && ((ws.drop i).take 4).all fun w => decide (w.length = 1) && w.all isAsciiLetter

/-- Claim C7, amended: timestamp preservation holds on the S6 scenario
(and is not universal, see the counterexample).  Filtering
`"aaa bb c d e f ThuFeb19 12:01AM xx y z q r"` yields exactly
`"aaa --- ThuFeb19 12:01AM"`, which contains the timestamp
`"ThuFeb19 12:01AM"` verbatim and has no run of 4 consecutive
single-letter tokens. -/
theorem C7_filter_preserves_s6_timestamp :
    filterGibberish "aaa bb c d e f ThuFeb19 12:01AM xx y z q r".data
      = "aaa --- ThuFeb19 12:01AM".data
    ∧ containsSub "ThuFeb19 12:01AM".data
        (filterGibberish "aaa bb c d e f ThuFeb19 12:01AM xx y z q r".data) = true
    ∧ fourSingleLetterRun
        (filterGibberish "aaa bb c d e f ThuFeb19 12:01AM xx y z q r".data) = false := by
  exact ⟨rfl, rfl, rfl⟩

/-- Claim C8, counterexample: ticks are not serialised.  With the
default capture interval (10 000 ms) and a tick that takes 25 000 ms,
two ticks are executing simultaneously at t = 10 000 ms — `setInterval`
starts the next tick regardless of the one still in flight, so "at most
one tick executes at a time" is false (and the monitor state carries no
overrun counter to increment). -/
theorem C8_counterexample :
    ticksExecutingAt 10000 25000 10000 = 2
    ∧ ({} : MonitorState).captureInterval = 10000 := by
  exact ⟨rfl, rfl⟩

/-- Claim C8, amended: tick start times are `0, interval, 2·interval, …`
independent of tick duration — an overrunning tick neither delays nor
drops the next one (they overlap instead): whenever a tick's duration
exceeds the interval, at least two ticks are executing at time
`interval`, and the next tick start `interval` is always scheduled by
time `t ≥ interval`. -/
theorem C8_ticks_overlap (interval duration t : Nat)
    (h1 : 0 < interval) (h2 : interval < duration) (h3 : interval ≤ t) :
    2 ≤ ticksExecutingAt interval duration interval
    ∧ interval ∈ tickStartTimes interval t := by
  constructor
  · have hdiv : interval / interval = 1 := Nat.div_self h1
    have hr : List.range (1 + 1) = [0, 1] := rfl
    unfold ticksExecutingAt tickStartTimes
    rw [hdiv, hr]
    have c1 : (decide ((0 : Nat) ≤ interval ∧ interval < 0 + duration)) = true := by
      simp only [decide_eq_true_eq]
      omega
    have c2 : (decide (interval ≤ interval ∧ interval < interval + duration)) = true := by
      simp only [decide_eq_true_eq]
      omega
    simp only [List.map_cons, List.map_nil, Nat.zero_mul, Nat.one_mul,
      List.countP_cons, List.countP_nil, c1, c2]
    simp
  · unfold tickStartTimes
    have h4 : 1 ∈ List.range (t / interval + 1) := by
      rw [List.mem_range]
      have : 1 ≤ t / interval := (Nat.one_le_div_iff h1).mpr h3
      omega
    have := List.mem_map_of_mem (· * interval) h4
    simpa using this

/-- Claim C8, witness for the amended theorem at interval 10 000 ms,
duration 25 000 ms, horizon 30 000 ms. -/
theorem C8_ticks_overlap_witness :
    2 ≤ ticksExecutingAt 10000 25000 10000
    ∧ 10000 ∈ tickStartTimes 10000 30000 :=
  C8_ticks_overlap 10000 25000 30000 (by decide) (by decide) (by decide)

/-- Claim C10: deleting a memory owned by a *different* user still
deletes every `memory_entities` row with that `memory_id` (the entity
delete is not scoped by user), leaves the differently-owned memory row
in place, and reports `{deleted: true}`. -/
theorem C10_delete_cross_user (db : Db) (memoryId : Str) (context : Ctx)
    (row : MemoryRow) (hmem : row ∈ db.memory) (_hid : row.id = memoryId)
    (howner : row.userId ≠ extractUserId context) :
    (deleteMemory db memoryId context).2 = { memoryId := memoryId, deleted := true }
    ∧ row ∈ (deleteMemory db memoryId context).1.memory
    ∧ ∀ e : EntityRow, e ∈ (deleteMemory db memoryId context).1.entities
        ↔ (e ∈ db.entities ∧ e.memoryId ≠ memoryId) := by
  refine ⟨rfl, ?_, ?_⟩
  · simp only [deleteMemory, List.mem_filter]
    refine ⟨hmem, ?_⟩
    simp only [Bool.not_eq_eq_eq_not, Bool.not_true, decide_eq_false_iff_not]
    intro hcontra
    exact howner hcontra.2
  · intro e
    simp [deleteMemory, List.mem_filter]

/-- Concrete database for the C10 witness: the memory `m1` belongs to
`alice`, the delete request comes from `bob`. -/
def c10Row : MemoryRow :=
  { id := "m1".data, userId := "alice".data, sourceText := "x".data
    createdAt := 0, updatedAt := 0 }

/-- Concrete entity rows for the C10 witness. -/
def c10Db : Db :=
  { memory := [c10Row]
    entities := [
      { id := "e1".data, memoryId := "m1".data, entity := "Dr".data
        type := "person".data, entityType := "person".data
        normalizedValue := "dr".data },
      { id := "e2".data, memoryId := "m2".data, entity := "X".data
        type := "t".data, entityType := "t".data
        normalizedValue := "x".data }] }

/-- Claim C10, witness: deleting `m1` as `bob` keeps `alice`'s row,
removes exactly the entities of `m1`, and returns `deleted: true`. -/
theorem C10_delete_cross_user_witness :
    (deleteMemory c10Db "m1".data { userId := some "bob".data }).2
        = { memoryId := "m1".data, deleted := true }
    ∧ c10Row ∈ (deleteMemory c10Db "m1".data { userId := some "bob".data }).1.memory
    ∧ ∀ e : EntityRow,
        e ∈ (deleteMemory c10Db "m1".data { userId := some "bob".data }).1.entities
        ↔ (e ∈ c10Db.entities ∧ e.memoryId ≠ "m1".data) :=
  C10_delete_cross_user c10Db "m1".data { userId := some "bob".data } c10Row
    (by decide) (by decide) (by decide)

/-- Helper for claim C6: a left fold of `min` over record creation times
either keeps its seed or lands on some element's creation time. -/
theorem foldl_min_createdAt_attained (rs : List MemoryRow) (a : Nat) :
    rs.foldl (fun m x => min m x.createdAt) a = a
    ∨ ∃ r ∈ rs, rs.foldl (fun m x => min m x.createdAt) a = r.createdAt := by
  induction rs generalizing a with
  | nil => exact Or.inl rfl
  | cons x rs ih =>
    simp only [List.foldl_cons]
    rcases ih (min a x.createdAt) with h | ⟨r, hr, he⟩
    · rcases Nat.le_total a x.createdAt with hle | hle
      · left
        rw [h, Nat.min_eq_left hle]
      · right
        exact ⟨x, List.mem_cons_self x rs, by rw [h, Nat.min_eq_right hle]⟩
    · exact Or.inr ⟨r, List.mem_cons_of_mem x hr, he⟩

/-- Helper for claim C6: on a non-empty table, `MIN(created_at)` is
attained by some row. -/
theorem minCreatedAt_attained (l : List MemoryRow) (h : l ≠ []) :
    ∃ r ∈ l, r.createdAt = minCreatedAt l := by
  match l with
  | [] => exact absurd rfl h
  | r :: rs =>
    rcases foldl_min_createdAt_attained rs r.createdAt with hb | ⟨x, hx, he⟩
    · exact ⟨r, List.mem_cons_self r rs, by rw [minCreatedAt, hb]⟩
    · exact ⟨x, List.mem_cons_of_mem r hx, by rw [minCreatedAt, he]⟩

/-- Claim C6: on a non-empty table and with a positive purge window, the
retention check purges exactly when
`floor((max(createdAt) - min(createdAt)) / day) > maxDays`; when it
purges, the deleted memory rows are exactly those with
`createdAt < oldest + purgeDays` days, the dependent entity rows of the
purged memories are deleted, and the issued statement sequence is entity
delete, record delete, index compaction, checkpoint, index rebuild; when
it does not purge, nothing changes. -/
theorem C6_retention_check (db : Db) (maxDays purgeDays : Nat)
    (hne : db.memory ≠ []) (hp : 0 < purgeDays) :
    (((maxCreatedAt db.memory - minCreatedAt db.memory) / dayMs > maxDays)
        ↔ (retentionCheck db maxDays purgeDays).2 ≠ [])
    ∧ ((maxCreatedAt db.memory - minCreatedAt db.memory) / dayMs > maxDays →
        (retentionCheck db maxDays purgeDays).2
          = [RetentionOp.deleteEntities, RetentionOp.deleteMemories,
              RetentionOp.compactIndex, RetentionOp.checkpoint,
              RetentionOp.rebuildIndex]
        ∧ (retentionCheck db maxDays purgeDays).1.memory
          = db.memory.filter (fun r =>
              !decide (r.createdAt < minCreatedAt db.memory + purgeDays * dayMs))
        ∧ (retentionCheck db maxDays purgeDays).1.entities
          = db.entities.filter (fun e =>
              !((db.memory.filter (fun r =>
                  decide (r.createdAt < minCreatedAt db.memory + purgeDays * dayMs))).map
                (·.id)).contains e.memoryId))
    ∧ (¬ ((maxCreatedAt db.memory - minCreatedAt db.memory) / dayMs > maxDays) →
        (retentionCheck db maxDays purgeDays) = (db, [])) := by
  obtain ⟨r0, hr0, hmin⟩ := minCreatedAt_attained db.memory hne
  have hcut : r0.createdAt < minCreatedAt db.memory + purgeDays * dayMs := by
    have : 0 < purgeDays * dayMs := Nat.mul_pos hp (by decide)
    omega
  have hfilter_ne :
      (db.memory.filter (fun r =>
        decide (r.createdAt < minCreatedAt db.memory + purgeDays * dayMs))).length ≠ 0 := by
    have hmem : r0 ∈ db.memory.filter (fun r =>
        decide (r.createdAt < minCreatedAt db.memory + purgeDays * dayMs)) := by
      rw [List.mem_filter]
      exact ⟨hr0, by simpa using hcut⟩
    intro hlen
    rw [List.length_eq_zero] at hlen
    rw [hlen] at hmem
    exact (List.not_mem_nil r0) hmem
  have hstep : retentionCheck db maxDays purgeDays
      = if (maxCreatedAt db.memory - minCreatedAt db.memory) / dayMs ≤ maxDays then (db, [])
        else retentionPurge db purgeDays (minCreatedAt db.memory) := by
    rw [retentionCheck, if_neg hne]
  by_cases hage : (maxCreatedAt db.memory - minCreatedAt db.memory) / dayMs ≤ maxDays
  · rw [hstep, if_pos hage]
    refine ⟨⟨fun h => absurd hage (by omega), fun h => absurd rfl h⟩, ?_, fun _ => rfl⟩
    intro h
    exact absurd hage (by omega)
  · rw [hstep, if_neg hage]
    rw [retentionPurge, if_neg hfilter_ne]
    refine ⟨⟨fun _ => by simp, fun _ => by omega⟩, fun _ => ⟨rfl, rfl, rfl⟩,
      fun h => absurd (by omega) h⟩

/-- Concrete database for the C6 witness: two records 1826 days apart,
exceeding the default 1825-day window. -/
def c6Db : Db :=
  { memory := [
      { id := "old".data, userId := "u".data, sourceText := "a".data
        createdAt := 0, updatedAt := 0 },
      { id := "new".data, userId := "u".data, sourceText := "b".data
        createdAt := 1826 * dayMs, updatedAt := 1826 * dayMs }] }

/-- Claim C6, witness at the default limits (1825/365 days) on a
database whose data age is 1826 days. -/
theorem C6_retention_check_witness :
    (((maxCreatedAt c6Db.memory - minCreatedAt c6Db.memory) / dayMs > 1825)
        ↔ (retentionCheck c6Db 1825 365).2 ≠ [])
    ∧ ((maxCreatedAt c6Db.memory - minCreatedAt c6Db.memory) / dayMs > 1825 →
        (retentionCheck c6Db 1825 365).2
          = [RetentionOp.deleteEntities, RetentionOp.deleteMemories,
              RetentionOp.compactIndex, RetentionOp.checkpoint,
              RetentionOp.rebuildIndex]
        ∧ (retentionCheck c6Db 1825 365).1.memory
          = c6Db.memory.filter (fun r =>
              !decide (r.createdAt < minCreatedAt c6Db.memory + 365 * dayMs))
        ∧ (retentionCheck c6Db 1825 365).1.entities
          = c6Db.entities.filter (fun e =>
              !((c6Db.memory.filter (fun r =>
                  decide (r.createdAt < minCreatedAt c6Db.memory + 365 * dayMs))).map
                (·.id)).contains e.memoryId))
    ∧ (¬ ((maxCreatedAt c6Db.memory - minCreatedAt c6Db.memory) / dayMs > 1825) →
        (retentionCheck c6Db 1825 365) = (c6Db, [])) :=
  C6_retention_check c6Db 1825 365 (by simp [c6Db]) (by decide)

/-- Helper: `dropWhile` skips a run of characters it accepts. -/
theorem dropWhile_replicate_append (p : Char → Bool) (c : Char)
    (hc : p c = true) (n : Nat) (l : Str) :
    List.dropWhile p (List.replicate n c ++ l) = List.dropWhile p l := by
  induction n with
  | zero => simp
  | succ n ih => simp [List.replicate_succ, List.dropWhile_cons, hc, ih]

/-- The C3 counterexample text: one letter followed by 10 000 spaces —
10 001 characters raw, a single character after trimming. -/
def c3Text : Str :=
  'a' :: List.replicate 10000 ' '

/-- Helper: a letter followed by `n` spaces trims to just the letter. -/
theorem jsTrim_letter_spaces (n : Nat) :
    jsTrim ('a' :: List.replicate n ' ') = ['a'] := by
  have hws : isWs ' ' = true := rfl
  have ha : isWs 'a' = false := rfl
  have h1 : List.dropWhile isWs ('a' :: List.replicate n ' ')
      = 'a' :: List.replicate n ' ' := by
    rw [List.dropWhile_cons, ha]
    simp
  rw [jsTrim, h1, List.reverse_cons, List.reverse_replicate,
    dropWhile_replicate_append isWs ' ' hws n ['a'], List.dropWhile_cons, ha]
  simp

/-- Helper: the counterexample text trims to `"a"`. -/
theorem jsTrim_c3Text : jsTrim c3Text = ['a'] :=
  jsTrim_letter_spaces 10000

/-- Claim C3, counterexample: the validator checks the length *before*
trimming.  `c3Text` is a non-empty string whose trimmed length is 1, so
the claim says `storeMemory` accepts it; instead `validateMemoryText`
throws (raw length 10 001 > 10 000) and the store call fails without
writing anything. -/
theorem C3_counterexample :
    c3Text ≠ []
    ∧ (jsTrim c3Text).length ≤ 10000
    ∧ validateMemoryText c3Text
        = .error "Memory text exceeds maximum length of 10,000 characters"
    ∧ (storeMemory (fun _ => List.replicate 384 0) 0 "m".data {}
        (initialEmbedderState none none) { text := c3Text } {}).1 = ({} : Db)
    ∧ (storeMemory (fun _ => List.replicate 384 0) 0 "m".data {}
        (initialEmbedderState none none) { text := c3Text } {}).2.2
        = .error "Memory text exceeds maximum length of 10,000 characters" := by
  have hlen : c3Text.length = 10001 := by
    rw [c3Text, List.length_cons, List.length_replicate]
  have hne : c3Text ≠ [] := by
    rw [c3Text]
    exact List.cons_ne_nil _ _
  have hval : validateMemoryText c3Text
      = .error "Memory text exceeds maximum length of 10,000 characters" := by
    rw [validateMemoryText, if_neg hne, if_pos (by omega)]
  refine ⟨hne, by rw [jsTrim_c3Text]; decide, hval, ?_, ?_⟩
  · show (storeMemory _ 0 _ {} _ { text := c3Text } {}).1 = ({} : Db)
    simp only [storeMemory, hval]
  · simp only [storeMemory, hval]

/-- Claim C3, amended: `storeMemory` accepts `payload.text` exactly when
it is a non-empty string of **raw** length at most 10 000 (the length
check precedes trimming); an accepted text is stored trimmed as
`sourceText`, and a rejected text fails validation before any write (the
database is unchanged and the result is an error). -/
theorem C3_store_validation (model : Str → List ℚ) (now : Nat)
    (memoryId : Str) (db : Db) (embSt : EmbedderState)
    (data : StorePayload) (context : Ctx) :
    ((validateMemoryText data.text).isOk
        ↔ (data.text ≠ [] ∧ data.text.length ≤ 10000))
    ∧ (∀ t, validateMemoryText data.text = .ok t → t = jsTrim data.text)
    ∧ (¬ (data.text ≠ [] ∧ data.text.length ≤ 10000) →
        (storeMemory model now memoryId db embSt data context).1 = db
        ∧ ∀ res, (storeMemory model now memoryId db embSt data context).2.2
            ≠ .ok res)
    ∧ (∀ db2 st res,
        storeMemory model now memoryId db embSt data context = (db2, st, .ok res) →
        db2.memory.map (·.sourceText)
          = db.memory.map (·.sourceText) ++ [jsTrim data.text]) := by
  have hinj : ∀ t, validateMemoryText data.text = .ok t → t = jsTrim data.text := by
    intro t ht
    rw [validateMemoryText] at ht
    split_ifs at ht
    injection ht with h
    exact h.symm
  have hiff : (validateMemoryText data.text).isOk
      ↔ (data.text ≠ [] ∧ data.text.length ≤ 10000) := by
    rw [validateMemoryText]
    split_ifs with h1 h2
    · simp [Except.isOk, Except.toBool, h1]
    · constructor
      · intro hok
        exact absurd hok (by simp [Except.isOk, Except.toBool])
      · rintro ⟨-, hle⟩
        omega
    · constructor
      · intro _
        exact ⟨h1, by omega⟩
      · intro _
        simp [Except.isOk, Except.toBool]
  refine ⟨hiff, hinj, ?_, ?_⟩
  · intro hrej
    have hne : ¬ (validateMemoryText data.text).isOk = true := by
      rw [hiff]
      exact hrej
    rcases hval : validateMemoryText data.text with e | t
    · constructor
      · simp only [storeMemory, hval]
      · intro res
        simp only [storeMemory, hval]
        exact fun h => Except.noConfusion h
    · rw [hval] at hne
      simp [Except.isOk, Except.toBool] at hne
  · intro db2 st res heq
    rcases hval : validateMemoryText data.text with e | t
    · simp only [storeMemory, hval, Prod.mk.injEq] at heq
      exact absurd heq.2.2 (fun h => Except.noConfusion h)
    · have htrim := hinj t hval
      subst htrim
      rcases hemb : generateEmbedding model now embSt (jsTrim data.text) with ⟨st1, r⟩
      rcases r with e | emb
      · simp only [storeMemory, hval, hemb, Prod.mk.injEq] at heq
        exact absurd heq.2.2 (fun h => Except.noConfusion h)
      · by_cases hlen : emb.length = 384
        · simp only [storeMemory, hval, hemb] at heq
          rw [if_neg (by simp [hlen])] at heq
          simp only [Prod.mk.injEq] at heq
          rw [← heq.1]
          simp
        · simp only [storeMemory, hval, hemb] at heq
          rw [if_pos hlen] at heq
          simp only [Prod.mk.injEq] at heq
          exact absurd heq.2.2 (fun h => Except.noConfusion h)

/-- Claim C3, witness for the amended theorem: text `"hi "` (raw length
3) is accepted and stored as the trimmed `"hi"`; the instantiation also
fixes the rejection clauses at this concrete call. -/
theorem C3_store_validation_witness :
    ((validateMemoryText "hi ".data).isOk
        ↔ ("hi ".data ≠ [] ∧ "hi ".data.length ≤ 10000))
    ∧ (∀ t, validateMemoryText "hi ".data = .ok t → t = jsTrim "hi ".data)
    ∧ (¬ ("hi ".data ≠ [] ∧ "hi ".data.length ≤ 10000) →
        (storeMemory (fun _ => List.replicate 384 0) 0 "m".data {}
          (initialEmbedderState none none) { text := "hi ".data } {}).1 = ({} : Db)
        ∧ ∀ res, (storeMemory (fun _ => List.replicate 384 0) 0 "m".data {}
            (initialEmbedderState none none) { text := "hi ".data } {}).2.2
            ≠ .ok res)
    ∧ (∀ db2 st res,
        storeMemory (fun _ => List.replicate 384 0) 0 "m".data {}
          (initialEmbedderState none none) { text := "hi ".data } {} = (db2, st, .ok res) →
        db2.memory.map (·.sourceText)
          = ({} : Db).memory.map (·.sourceText) ++ [jsTrim "hi ".data]) :=
  C3_store_validation (fun _ => List.replicate 384 0) 0 "m".data {}
    (initialEmbedderState none none) { text := "hi ".data } {}

/-- Embedding oracle for the C2 scenario. -/
def c2Model : Str → List ℚ :=
  fun _ => List.replicate 384 0

/-- The C2 record before the update: text `"hi"`, created and updated at
1500 ms (a timestamp with a fractional second part). -/
def c2Row : MemoryRow :=
  { id := "m1".data, userId := "default_user".data, sourceText := "hi".data
    embedding := some (List.replicate 384 0), createdAt := 1500, updatedAt := 1500 }

/-- The C2 database. -/
def c2Db : Db :=
  { memory := [c2Row] }

/-- The C2 update call: `updateMemory("m1", {text: "hi "})` at time
2000 ms. -/
def c2Out : Db × EmbedderState × Except String UpdateResult :=
  updateMemory c2Model 2000 c2Db (initialEmbedderState none none) "m1".data
    { text := some "hi ".data } {}

/-- Claim C2, counterexample: updating with `T' = "hi "` (trailing
space) on a record whose text is `"hi"` succeeds, but (a) the subsequent
retrieve returns the trimmed `"hi"`, not `T'`; (b) `createdAt` changes
from 1500 to 1000 (the re-insert truncates it to whole seconds via
`toISOString().slice(0,19)`); (c) the result reports the embedding as
regenerated even though the stored text did not change (`trim(T')`
equals the old text) — regeneration is keyed on `updates.text` being
truthy, not on the text changing. -/
theorem C2_counterexample :
    c2Out.2.2
      = .ok { memoryId := "m1".data, updated := true, embeddingRegenerated := true }
    ∧ (retrieveMemory c2Out.1 "m1".data {}).map (·.text) = .ok "hi".data
    ∧ "hi".data ≠ "hi ".data
    ∧ (retrieveMemory c2Out.1 "m1".data {}).map (·.createdAt) = .ok 1000
    ∧ c2Row.createdAt = 1500
    ∧ jsTrim "hi ".data = c2Row.sourceText := by
  exact ⟨rfl, rfl, by decide, rfl, rfl, rfl⟩

/-- Helper: `find?` over an append scans the left part first. -/
theorem find?_append_eq_right {α : Type} (p : α → Bool) (l1 l2 : List α)
    (h : ∀ x ∈ l1, p x = false) :
    (l1 ++ l2).find? p = l2.find? p := by
  induction l1 with
  | nil => rfl
  | cons a l ih =>
    rw [List.cons_append, List.find?_cons, h a (List.mem_cons_self a l)]
    exact ih fun x hx => h x (List.mem_cons_of_mem a hx)

/-- Helper: retrieving after a delete + re-insert finds exactly the
re-inserted row. -/
theorem retrieveMemory_reinsert (pre : List MemoryRow) (ents : List EntityRow)
    (memoryId : Str) (context : Ctx) (nr : MemoryRow)
    (hpre : ∀ x ∈ pre,
      (fun r : MemoryRow => decide (r.id = memoryId ∧ r.userId = extractUserId context)) x
        = false)
    (hid : nr.id = memoryId) (huser : nr.userId = extractUserId context) :
    retrieveMemory { memory := pre ++ [nr], entities := ents } memoryId context
      = .ok { id := nr.id, text := nr.sourceText
              entities := ents.filter fun e => decide (e.memoryId = memoryId)
              metadata := nr.metadata, screenshot := nr.screenshot
              extractedText := nr.extractedText, createdAt := nr.createdAt
              updatedAt := nr.updatedAt } := by
  have hfind2 : ((pre ++ [nr]).find?
      (fun r => decide (r.id = memoryId ∧ r.userId = extractUserId context))) = some nr := by
    rw [find?_append_eq_right _ _ _ hpre]
    exact List.find?_cons_of_pos _ (by simp [hid, huser])
  rw [retrieveMemory]
  rw [hfind2]

/-- Claim C2, amended: after a successful
`updateMemory(id, {text: T'})`, a subsequent `retrieveMemory(id)`
returns `trim(T')`; the new `createdAt` is the old one truncated to
whole seconds (sub-second precision is lost); `updatedAt` is the update
time, hence at least the previous `updatedAt` when the clock is
monotone; the embedding is regenerated exactly because `updates.text`
was supplied truthy (even if the text did not change); and the row is
re-inserted under the same id (exactly one row with that id and user
remains). -/
theorem C2_update_semantics (model : Str → List ℚ) (now : Nat) (db : Db)
    (embSt st1 : EmbedderState) (memoryId tNew : Str) (context : Ctx)
    (row : MemoryRow) (v : List ℚ)
    (hfind : db.memory.find?
      (fun r => decide (r.id = memoryId ∧ r.userId = extractUserId context)) = some row)
    (htruthy : tNew ≠ [])
    (hlen : tNew.length ≤ 10000)
    (hemb : generateEmbedding model now embSt tNew = (st1, .ok v))
    (hclock : row.updatedAt ≤ now) :
    (updateMemory model now db embSt memoryId { text := some tNew } context).2.2
      = .ok { memoryId := memoryId, updated := true, embeddingRegenerated := true }
    ∧ (retrieveMemory
        (updateMemory model now db embSt memoryId { text := some tNew } context).1
        memoryId context).map (·.text) = .ok (jsTrim tNew)
    ∧ (retrieveMemory
        (updateMemory model now db embSt memoryId { text := some tNew } context).1
        memoryId context).map (·.createdAt) = .ok (truncToSecond row.createdAt)
    ∧ (retrieveMemory
        (updateMemory model now db embSt memoryId { text := some tNew } context).1
        memoryId context).map (·.updatedAt) = .ok now
    ∧ row.updatedAt ≤ now
    ∧ ((updateMemory model now db embSt memoryId { text := some tNew } context).1.memory.filter
        (fun r => decide (r.id = memoryId ∧ r.userId = extractUserId context))).length = 1 := by
  have hreg : optStrTruthy (some tNew) = true := by
    simp [optStrTruthy, strTruthy, htruthy]
  have hval : validateMemoryText tNew = .ok (jsTrim tNew) := by
    rw [validateMemoryText, if_neg htruthy, if_neg (by omega)]
  have hout : updateMemory model now db embSt memoryId { text := some tNew } context
      = ({ memory := db.memory.filter
              (fun r => !decide (r.id = memoryId ∧ r.userId = extractUserId context))
            ++ [{ id := memoryId
                  userId := extractUserId context
                  type := jsOrStr (some row.type) "user_memory".data
                  sourceText := jsTrim tNew
                  metadata := jsOrStr (some row.metadata) "{}".data
                  screenshot := row.screenshot
                  extractedText := row.extractedText
                  embedding := some v
                  createdAt := truncToSecond row.createdAt
                  updatedAt := now }]
           entities := db.entities }, st1,
          .ok { memoryId := memoryId, updated := true, embeddingRegenerated := true }) := by
    simp only [updateMemory, hfind, hreg, Option.getD_some, hval, hemb, if_true]
    rfl
  have hpre : ∀ x ∈ db.memory.filter
      (fun r => !decide (r.id = memoryId ∧ r.userId = extractUserId context)),
      (fun r : MemoryRow => decide (r.id = memoryId ∧ r.userId = extractUserId context)) x
        = false := by
    intro x hx
    rw [List.mem_filter] at hx
    have h2 := hx.2
    simp only [Bool.not_eq_true'] at h2
    exact h2
  have hpre2 : ∀ x ∈ db.memory.filter
      (fun r => !decide (r.id = memoryId ∧ r.userId = extractUserId context)),
      ¬ ((fun r : MemoryRow => decide (r.id = memoryId ∧ r.userId = extractUserId context)) x
        = true) := by
    intro x hx
    rw [hpre x hx]
    exact Bool.false_ne_true
  rw [hout]
  refine ⟨rfl, ?_, ?_, ?_, hclock, ?_⟩
  · rw [retrieveMemory_reinsert _ _ _ _ _ hpre rfl rfl]
    rfl
  · rw [retrieveMemory_reinsert _ _ _ _ _ hpre rfl rfl]
    rfl
  · rw [retrieveMemory_reinsert _ _ _ _ _ hpre rfl rfl]
    rfl
  · show (List.filter _ (_ ++ _)).length = 1
    rw [List.filter_append, List.filter_eq_nil_iff.mpr hpre2,
      List.filter_cons_of_pos (by simp)]
    rfl

/-- Claim C2, witness for the amended theorem: updating `m1` with text
`"bye "` at time 2000 ms on the concrete database. -/
theorem C2_update_semantics_witness :
    (updateMemory c2Model 2000 c2Db (initialEmbedderState none none) "m1".data
        { text := some "bye ".data } {}).2.2
      = .ok { memoryId := "m1".data, updated := true, embeddingRegenerated := true }
    ∧ (retrieveMemory
        (updateMemory c2Model 2000 c2Db (initialEmbedderState none none) "m1".data
          { text := some "bye ".data } {}).1 "m1".data {}).map (·.text)
        = .ok (jsTrim "bye ".data)
    ∧ (retrieveMemory
        (updateMemory c2Model 2000 c2Db (initialEmbedderState none none) "m1".data
          { text := some "bye ".data } {}).1 "m1".data {}).map (·.createdAt)
        = .ok (truncToSecond c2Row.createdAt)
    ∧ (retrieveMemory
        (updateMemory c2Model 2000 c2Db (initialEmbedderState none none) "m1".data
          { text := some "bye ".data } {}).1 "m1".data {}).map (·.updatedAt)
        = .ok 2000
    ∧ c2Row.updatedAt ≤ 2000
    ∧ ((updateMemory c2Model 2000 c2Db (initialEmbedderState none none) "m1".data
        { text := some "bye ".data } {}).1.memory.filter
        (fun r => decide (r.id = "m1".data ∧ r.userId = extractUserId {}))).length = 1 :=
  C2_update_semantics c2Model 2000 c2Db (initialEmbedderState none none)
    ((generateEmbedding c2Model 2000 (initialEmbedderState none none) "bye ".data).1)
    "m1".data "bye ".data {} c2Row (List.replicate 384 0)
    rfl (by decide) (by decide) rfl (by decide)

/-- Helper: ASCII lower-casing does not change whether a character is
whitespace. -/
theorem isWs_toLower (c : Char) : isWs (Char.toLower c) = isWs c := by
  unfold Char.toLower
  by_cases h : c.toNat ≥ 65 ∧ c.toNat ≤ 90
  · rw [if_pos h]
    have hc : isWs c = false := by
      unfold isWs
      simp only [Bool.or_eq_false_iff, decide_eq_false_iff_not]
      refine ⟨⟨⟨⟨⟨?_, ?_⟩, ?_⟩, ?_⟩, ?_⟩, ?_⟩ <;>
        · intro he
          rw [he] at h
          revert h
          decide
    have hl : isWs (Char.ofNat (c.toNat + 32)) = false := by
      obtain ⟨h1, h2⟩ := h
      generalize hg : c.toNat = n at h1 h2
      interval_cases n <;> decide
    rw [hc, hl]
  · rw [if_neg h]

/-- Helper: `dropWhile` commutes with `map` when the predicate is
invariant under the mapped function. -/
theorem dropWhile_map_invariant (f : Char → Char) (p : Char → Bool)
    (hf : ∀ c, p (f c) = p c) (l : Str) :
    List.dropWhile p (l.map f) = (List.dropWhile p l).map f := by
  induction l with
  | nil => rfl
  | cons a l ih =>
    rw [List.map_cons, List.dropWhile_cons, List.dropWhile_cons, hf a]
    by_cases hpa : p a = true
    · rw [hpa]
      simpa using ih
    · rw [Bool.not_eq_true] at hpa
      rw [hpa]
      simp

/-- Helper: trimming commutes with lower-casing, so the code's
`toLowerCase().trim()` equals the spec's `lower(trim(text))`. -/
theorem jsTrim_jsToLower_comm (t : Str) :
    jsTrim (jsToLower t) = jsToLower (jsTrim t) := by
  unfold jsTrim jsToLower
  rw [dropWhile_map_invariant _ _ isWs_toLower, ← List.map_reverse,
    dropWhile_map_invariant _ _ isWs_toLower, ← List.map_reverse]

/-- Helper: the cache entry just written by `cacheSet` sits at the front
when the capacity is positive. -/
theorem cacheSet_front (st : EmbedderState) (now : Nat) (key : Str)
    (vec : List ℚ) (k : Nat) (hk : st.cacheSize = k + 1) :
    (cacheSet st now key vec).cache
      = { key := key, vec := vec, insertedAt := now } ::
          (st.cache.filter (fun x => x.key ≠ key)).take k := by
  rw [cacheSet]
  show (_ :: _).take st.cacheSize = _
  rw [hk, List.take_succ_cons]

/-- Helper: a successful `generateEmbedding` leaves the produced vector
at the front of the LRU cache, stamped with the call time, without
touching capacity or TTL. -/
theorem generateEmbedding_ok_front (model : Str → List ℚ) (now : Nat)
    (st st1 : EmbedderState) (t : Str) (v : List ℚ)
    (hcap : 0 < st.cacheSize)
    (h : generateEmbedding model now st t = (st1, .ok v)) :
    (∃ rest, st1.cache = { key := getCacheKey t, vec := v, insertedAt := now } :: rest)
    ∧ st1.cacheTTL = st.cacheTTL ∧ st1.cacheSize = st.cacheSize := by
  obtain ⟨k, hk⟩ : ∃ k, st.cacheSize = k + 1 := by
    rcases Nat.exists_eq_add_of_lt hcap with ⟨k, hke⟩
    exact ⟨k, by omega⟩
  by_cases hval : (t = [] || jsTrim t = []) = true
  · rw [generateEmbedding, if_pos hval] at h
    exact absurd (congrArg Prod.snd h) (by simp)
  · rw [generateEmbedding, if_neg hval] at h
    rcases hfind : st.cache.find? (fun x => x.key = getCacheKey t) with _ | e
    · have hget : cacheGet { st with totalRequests := st.totalRequests + 1 } now
          (getCacheKey t) = ({ st with totalRequests := st.totalRequests + 1 }, none) := by
        unfold cacheGet
        simp only [hfind]
      simp only [hget] at h
      by_cases hlen : (model t).length = 384
      · rw [if_neg (by simp [hlen])] at h
        have hA : st1 = cacheSet
            { st with totalRequests := st.totalRequests + 1, misses := st.misses + 1 }
            now (getCacheKey t) (model t) := by
          have h1 := congrArg Prod.fst h
          simpa using h1.symm
        have hvv : v = model t := by
          have h2 := congrArg Prod.snd h
          simpa using h2.symm
        subst hvv
        refine ⟨⟨(st.cache.filter (fun x => x.key ≠ getCacheKey t)).take k, ?_⟩,
          by rw [hA]; rfl, by rw [hA]; rfl⟩
        rw [hA, cacheSet_front
          { st with totalRequests := st.totalRequests + 1, misses := st.misses + 1 }
          now (getCacheKey t) (model t) k hk]
      · rw [if_pos (by simp [hlen])] at h
        exact absurd (congrArg Prod.snd h) (by simp)
    · have hekey : e.key = getCacheKey t := by
        simpa using List.find?_some hfind
      by_cases httl : now < e.insertedAt + st.cacheTTL
      · have hget : cacheGet { st with totalRequests := st.totalRequests + 1 } now
            (getCacheKey t)
            = ({ st with totalRequests := st.totalRequests + 1, cache :=
                  { e with insertedAt := now } ::
                    st.cache.filter (fun x => x.key ≠ getCacheKey t) }, some e.vec) := by
          unfold cacheGet
          simp only [hfind]
          rw [if_pos httl]
        simp only [hget] at h
        have hA : st1 = { st with totalRequests := st.totalRequests + 1, cache :=
            ({ e with insertedAt := now } ::
              st.cache.filter (fun x => x.key ≠ getCacheKey t)), hits :=
            st.hits + 1 } := by
          have h1 := congrArg Prod.fst h
          simpa using h1.symm
        have hvv : v = e.vec := by
          have h2 := congrArg Prod.snd h
          simpa using h2.symm
        subst hvv
        refine ⟨⟨st.cache.filter (fun x => x.key ≠ getCacheKey t), ?_⟩,
          by rw [hA], by rw [hA]⟩
        rw [hA]
        show ({ e with insertedAt := now } : CacheEntry) :: _ = _
        rw [show ({ e with insertedAt := now } : CacheEntry)
            = { key := e.key, vec := e.vec, insertedAt := now } from rfl, hekey]
      · have hget : cacheGet { st with totalRequests := st.totalRequests + 1 } now
            (getCacheKey t)
            = ({ st with totalRequests := st.totalRequests + 1, cache :=
                  st.cache.filter (fun x => x.key ≠ getCacheKey t) }, none) := by
          unfold cacheGet
          simp only [hfind]
          rw [if_neg httl]
        simp only [hget] at h
        by_cases hlen : (model t).length = 384
        · rw [if_neg (by simp [hlen])] at h
          have hA : st1 = cacheSet
              { st with totalRequests := st.totalRequests + 1, cache :=
                  st.cache.filter (fun x => x.key ≠ getCacheKey t), misses :=
                  st.misses + 1 }
              now (getCacheKey t) (model t) := by
            have h1 := congrArg Prod.fst h
            simpa using h1.symm
          have hvv : v = model t := by
            have h2 := congrArg Prod.snd h
            simpa using h2.symm
          subst hvv
          refine ⟨⟨((st.cache.filter (fun x => x.key ≠ getCacheKey t)).filter
              (fun x => x.key ≠ getCacheKey t)).take k, ?_⟩,
            by rw [hA]; rfl, by rw [hA]; rfl⟩
          rw [hA, cacheSet_front
            { st with totalRequests := st.totalRequests + 1, cache :=
                st.cache.filter (fun x => x.key ≠ getCacheKey t), misses :=
                st.misses + 1 }
            now (getCacheKey t) (model t) k hk]
        · rw [if_pos (by simp [hlen])] at h
          exact absurd (congrArg Prod.snd h) (by simp)

/-- Helper: with the wanted key at the cache front and inside the TTL,
`generateEmbedding` answers from the cache. -/
theorem generateEmbedding_hit (model : Str → List ℚ) (now τ : Nat)
    (st : EmbedderState) (t : Str) (v : List ℚ) (rest : List CacheEntry)
    (hcache : st.cache = { key := getCacheKey t, vec := v, insertedAt := τ } :: rest)
    (hvalid : jsTrim t ≠ [])
    (httl : now < τ + st.cacheTTL) :
    (generateEmbedding model now st t).2 = .ok v := by
  have hne : ¬ (t = [] || jsTrim t = []) = true := by
    simp only [Bool.or_eq_true, decide_eq_true_eq]
    rintro (h1 | h2)
    · rw [h1] at hvalid
      exact hvalid rfl
    · exact hvalid h2
  have hfront : st.cache.find? (fun x => x.key = getCacheKey t)
      = some { key := getCacheKey t, vec := v, insertedAt := τ } := by
    rw [hcache]
    exact List.find?_cons_of_pos _ (by simp)
  have hget : cacheGet { st with totalRequests := st.totalRequests + 1 } now
      (getCacheKey t)
      = ({ st with totalRequests := st.totalRequests + 1, cache :=
            { key := getCacheKey t, vec := v, insertedAt := now } ::
              st.cache.filter (fun x => x.key ≠ getCacheKey t) }, some v) := by
    unfold cacheGet
    simp only [hfront]
    rw [if_pos httl]
  rw [generateEmbedding, if_neg hne]
  simp only [hget]

/-- Claim C5: the embedding cache key is `lower(trim(text))` truncated
to 200 characters (the code computes `toLowerCase().trim().slice(0,200)`,
which is the same string); the LRU cache defaults are capacity 1000 and
TTL 24 h (86 400 000 ms); and after a successful `Embed(t1)`, a second
call whose input normalises to the same key — made within the TTL on a
cache of positive capacity — returns the very same vector. -/
theorem C5_embedding_cache (model : Str → List ℚ) (now1 now2 : Nat)
    (st st1 : EmbedderState) (t1 t2 : Str) (v1 : List ℚ)
    (hkey : getCacheKey t1 = getCacheKey t2)
    (ht2 : jsTrim t2 ≠ [])
    (hgen : generateEmbedding model now1 st t1 = (st1, .ok v1))
    (httl : now2 < now1 + st.cacheTTL)
    (hcap : 0 < st.cacheSize) :
    getCacheKey t1 = (jsToLower (jsTrim t1)).take 200
    ∧ (initialEmbedderState none none).cacheSize = 1000
    ∧ (initialEmbedderState none none).cacheTTL = 86400000
    ∧ (generateEmbedding model now2 st1 t2).2 = .ok v1 := by
  refine ⟨?_, rfl, rfl, ?_⟩
  · rw [getCacheKey, jsTrim_jsToLower_comm]
  · obtain ⟨⟨rest, hfront⟩, httl_eq, _⟩ :=
      generateEmbedding_ok_front model now1 st st1 t1 v1 hcap hgen
    refine generateEmbedding_hit model now2 now1 st1 t2 v1 rest ?_ ht2 ?_
    · rw [hfront, hkey]
    · rw [httl_eq]
      exact httl

/-- Claim C5, witness: `"Hello "` and `"hello"` share the cache key
`"hello"`; embedding the first at t = 0 and the second at t = 1 on a
fresh default cache returns the identical vector. -/
theorem C5_embedding_cache_witness :
    getCacheKey "Hello ".data = (jsToLower (jsTrim "Hello ".data)).take 200
    ∧ (initialEmbedderState none none).cacheSize = 1000
    ∧ (initialEmbedderState none none).cacheTTL = 86400000
    ∧ (generateEmbedding (fun _ => List.replicate 384 0) 1
        ((generateEmbedding (fun _ => List.replicate 384 0) 0
          (initialEmbedderState none none) "Hello ".data).1) "hello".data).2
        = .ok (List.replicate 384 0) :=
  C5_embedding_cache (fun _ => List.replicate 384 0) 0 1
    (initialEmbedderState none none)
    ((generateEmbedding (fun _ => List.replicate 384 0) 0
      (initialEmbedderState none none) "Hello ".data).1)
    "Hello ".data "hello".data (List.replicate 384 0)
    (by decide) (by decide) rfl (by decide) (by decide)

/- ------------------------------------------------------------------
C1: searchMemories threshold and ordering
------------------------------------------------------------------ -/

/-- Membership through `insertAscBy`. -/
theorem mem_insertAscBy {α : Type} (key : α → ℚ) (a x : α) (l : List α) :
    x ∈ insertAscBy key a l ↔ x = a ∨ x ∈ l := by
  induction l with
  | nil => simp [insertAscBy]
  | cons b l ih =>
    simp only [insertAscBy]
    split
    · simp only [List.mem_cons]
    · simp only [List.mem_cons, ih]
      tauto

/-- `insertAscBy` preserves the ascending pairwise order. -/
theorem pairwise_insertAscBy {α : Type} (key : α → ℚ) (a : α) (l : List α)
    (h : l.Pairwise (fun x y => key x ≤ key y)) :
    (insertAscBy key a l).Pairwise (fun x y => key x ≤ key y) := by
  induction l with
  | nil => simp [insertAscBy]
  | cons b l ih =>
    simp only [insertAscBy]
    rcases List.pairwise_cons.mp h with ⟨hb, hl⟩
    by_cases hab : key a ≤ key b
    · rw [if_pos hab]
      refine List.pairwise_cons.mpr ⟨?_, h⟩
      intro x hx
      rcases List.mem_cons.mp hx with rfl | hx
      · exact hab
      · exact le_trans hab (hb x hx)
    · rw [if_neg hab]
      push_neg at hab
      refine List.pairwise_cons.mpr ⟨?_, ih hl⟩
      intro x hx
      rcases (mem_insertAscBy key a x l).mp hx with rfl | hx
      · exact le_of_lt hab
      · exact hb x hx

/-- `sortAscBy` returns a list that is ascending in `key`. -/
theorem pairwise_sortAscBy {α : Type} (key : α → ℚ) (l : List α) :
    (sortAscBy key l).Pairwise (fun x y => key x ≤ key y) := by
  induction l with
  | nil => simp [sortAscBy]
  | cons a l ih =>
    simp only [sortAscBy]
    exact pairwise_insertAscBy key a _ ih

/-- C1: whenever `searchMemories` succeeds, every returned result has
similarity at least the effective threshold
(`options.minSimilarity || env || 0.3`), and the result list is sorted in
descending order of similarity (ascending cosine distance). -/
theorem C1_search_results (dist : List ℚ → List ℚ → ℚ) (model : Str → List ℚ)
    (now : Nat) (envMinSim : Option ℚ) (envMaxAge : Option Int)
    (db : Db) (embSt embSt2 : EmbedderState) (query : Str)
    (options : SearchOptions) (context : Ctx)
    (results : List SearchResultItem)
    (h : searchMemories dist model now envMinSim envMaxAge db embSt query
      options context = (embSt2, .ok results)) :
    (∀ r ∈ results,
      effectiveMinSimilarity options.minSimilarity envMinSim ≤ r.similarity)
    ∧ results.Pairwise (fun a b => b.similarity ≤ a.similarity) := by
  rcases hg : generateEmbedding model now embSt query with ⟨stq, rq⟩
  rcases rq with e | qvec
  · simp only [searchMemories, hg, Prod.mk.injEq] at h
    exact Except.noConfusion h.2
  · simp only [searchMemories, hg, Prod.mk.injEq, Except.ok.injEq] at h
    obtain ⟨-, h2⟩ := h
    subst h2
    constructor
    · intro r hr
      rw [List.mem_map] at hr
      obtain ⟨p, hp, rfl⟩ := hr
      rw [List.mem_filter] at hp
      have hsim := of_decide_eq_true hp.2
      exact hsim
    · refine List.Pairwise.map _ (fun p q (hpq : q.2 ≤ p.2) => hpq) ?_
      refine List.Pairwise.sublist (List.filter_sublist _) ?_
      refine List.Pairwise.map _
        (fun a b (hab : dist (a.embedding.getD []) qvec ≤
          dist (b.embedding.getD []) qvec) => sub_le_sub_left hab 1) ?_
      exact (pairwise_sortAscBy _ _).sublist
        ((List.take_sublist _ _).trans (List.drop_sublist _ _))

/- ------------------------------------------------------------------
C9: the maxAgeDays coercion and the age filter
------------------------------------------------------------------ -/

/-- A memory row 100 days older than the query time used for C9. -/
def c9Row : MemoryRow :=
  { id := "m9".data, userId := "default_user".data, sourceText := "old".data
    embedding := some (List.replicate 384 0), createdAt := 0, updatedAt := 0 }

/-- A database holding only `c9Row`. -/
def c9Db : Db := { memory := [c9Row] }

/-- The search result produced from `c9Row` by the C9 query. -/
def c9Item : SearchResultItem :=
  { id := "m9".data, text := "old".data, similarity := 1, entities := []
    metadata := "{}".data, screenshot := none, extractedText := none
    createdAt := 0 }

/-- `ageAtMost m` is one of the built conditions whenever `m > 0`. -/
theorem ageAtMost_mem_buildSearchConds (u : Str) (m : Int)
    (options : SearchOptions) (hm : m > 0) :
    SearchCond.ageAtMost m ∈ buildSearchConds u m options := by
  rw [buildSearchConds, if_pos hm]
  simp

/-- Every built condition is the user condition, the age condition for
the given bound, a type condition or a session condition. -/
theorem buildSearchConds_shape (u : Str) (m : Int) (options : SearchOptions) :
    ∀ c ∈ buildSearchConds u m options,
      c = SearchCond.userEq u ∨ (m > 0 ∧ c = SearchCond.ageAtMost m)
      ∨ (∃ t, c = SearchCond.typeEq t)
      ∨ (∃ s, c = SearchCond.sessionLike s) := by
  obtain ⟨uid, lim, off, minS, mAge, fil, sid⟩ := options
  rcases fil with _ | f
  · rcases sid with _ | s3 <;>
      intro c hc <;>
      rw [buildSearchConds] at hc <;>
      simp only [List.mem_append, List.mem_singleton, List.not_mem_nil,
        or_false, false_or] at hc <;>
      split_ifs at hc <;>
      aesop
  · obtain ⟨ft, fs⟩ := f
    rcases ft with _ | t <;> rcases fs with _ | s2 <;>
      rcases sid with _ | s3 <;>
      intro c hc <;>
      rw [buildSearchConds] at hc <;>
      simp only [List.mem_append, List.mem_singleton, List.not_mem_nil,
        or_false, false_or] at hc <;>
      split_ifs at hc <;>
      aesop

/-- C9 counterexample: `options.maxAgeDays = -1` is not falsy, so the
effective bound becomes `-1`, no age condition is built at all, and a
concrete search returns a row 100 days old — the age filter CAN be
disabled by an option value. -/
theorem C9_counterexample :
    effectiveMaxAgeDays (some (-1)) none = -1
    ∧ (∀ d : Int, SearchCond.ageAtMost d ∉
        buildSearchConds "default_user".data
          (effectiveMaxAgeDays (some (-1)) none) { maxAgeDays := some (-1) })
    ∧ ((100 * 86400000 : Int) - (c9Row.createdAt : Int) > 30 * 86400000)
    ∧ (searchMemories (fun _ _ => 0) (fun _ => List.replicate 384 0)
        (100 * 86400000) none none c9Db (initialEmbedderState none none)
        "q".data { maxAgeDays := some (-1) } { }).2
      = .ok [c9Item] := by
  refine ⟨rfl, ?_, ?_, ?_⟩
  · intro d hd
    have he : buildSearchConds "default_user".data
        (effectiveMaxAgeDays (some (-1)) none) { maxAgeDays := some (-1) }
        = [SearchCond.userEq "default_user".data] := rfl
    rw [he] at hd
    simp at hd
  · norm_num [c9Row]
  · have hg : generateEmbedding (fun _ => List.replicate 384 0)
        (100 * 86400000) (initialEmbedderState none none) "q".data
        = ({ cache :=
              [{ key := "q".data, vec := List.replicate 384 0, insertedAt :=
                100 * 86400000 }]
             cacheSize := 1000, cacheTTL := 86400000, hits := 0, misses := 1
             totalRequests := 1 },
          .ok (List.replicate 384 0)) := rfl
    have hrows : c9Db.memory.filter (fun r =>
        (buildSearchConds (extractUserId { })
          (effectiveMaxAgeDays (some (-1)) none)
          { maxAgeDays := some (-1) }).all
          (matchesCond (100 * 86400000) r)
        && r.embedding.isSome) = [c9Row] := rfl
    have hsort : ∀ key : MemoryRow → ℚ, sortAscBy key [c9Row] = [c9Row] :=
      fun _ => rfl
    have hpage : (List.take 25 (List.drop 0 [c9Row]) : List MemoryRow)
        = [c9Row] := rfl
    have hq : effectiveMinSimilarity none none = 3/10 := rfl
    have hbool : decide ((1:ℚ) - 0 ≥ 3/10) = true :=
      decide_eq_true (by norm_num)
    simp only [searchMemories, hg, jsOrNat, hrows, hsort, hpage,
      List.map_cons, List.map_nil, List.filter_cons, List.filter_nil, hq,
      hbool, if_true]
    norm_num [c9Item, c9Row, c9Db]

/-- C9: with a falsy `maxAgeDays` (absent or `0`) and no environment
default, the effective bound is coerced to 30 and the age condition
`createdAt ≥ now − 30 days` is part of the query; but a negative option
value survives the `||` coercion, fails the `maxAgeDays > 0` guard and
so builds no age condition: the age filter can be disabled. -/
theorem C9_age_filter (userId : Str) (options : SearchOptions) (n : Int)
    (hn : n < 0) :
    effectiveMaxAgeDays none none = 30
    ∧ effectiveMaxAgeDays (some 0) none = 30
    ∧ SearchCond.ageAtMost 30 ∈
        buildSearchConds userId (effectiveMaxAgeDays (some 0) none) options
    ∧ effectiveMaxAgeDays (some n) none = n
    ∧ ∀ d : Int, SearchCond.ageAtMost d ∉
        buildSearchConds userId (effectiveMaxAgeDays (some n) none) options := by
  have hne : effectiveMaxAgeDays (some n) none = n := by
    rw [effectiveMaxAgeDays, jsOrInt, if_neg (by omega : ¬ n = 0)]
  refine ⟨rfl, rfl, ?_, hne, ?_⟩
  · exact ageAtMost_mem_buildSearchConds userId 30 options (by norm_num)
  · rw [hne]
    intro d hd
    rcases buildSearchConds_shape userId n options
        (SearchCond.ageAtMost d) hd with h | h | ⟨t, h⟩ | ⟨s, h⟩
    · exact SearchCond.noConfusion h
    · exact absurd h.1 (by omega)
    · exact SearchCond.noConfusion h
    · exact SearchCond.noConfusion h

/-- C9 witness: the age-filter coercion facts at concrete inputs. -/
theorem C9_age_filter_witness :
    effectiveMaxAgeDays none none = 30
    ∧ effectiveMaxAgeDays (some 0) none = 30
    ∧ SearchCond.ageAtMost 30 ∈
        buildSearchConds "u".data (effectiveMaxAgeDays (some 0) none) { }
    ∧ effectiveMaxAgeDays (some (-1)) none = -1
    ∧ ∀ d : Int, SearchCond.ageAtMost d ∉
        buildSearchConds "u".data (effectiveMaxAgeDays (some (-1)) none) { } :=
  C9_age_filter "u".data { } (-1) (by norm_num)

/-- C1 witness: a concrete successful search (empty database, constant
distance oracle) satisfying the threshold and ordering properties. -/
theorem C1_search_results_witness :
    (∀ r ∈ ([] : List SearchResultItem),
      effectiveMinSimilarity none none ≤ r.similarity)
    ∧ ([] : List SearchResultItem).Pairwise
        (fun a b => b.similarity ≤ a.similarity) :=
  C1_search_results (fun _ _ => 0) (fun _ => List.replicate 384 0) 0 none none
    { } (initialEmbedderState none none)
    ((generateEmbedding (fun _ => List.replicate 384 0) 0
      (initialEmbedderState none none) "hello".data).1)
    "hello".data { } { } [] rfl

end ThinkdropMemory
